import Mathlib

/-!
# A minimal FFmpeg / SDL2 video player: `main` of `src/main.c`

The program is one C function, `main`, that talks to two external libraries
(FFmpeg and SDL2).  The embedding turns it into a pure function of a `World`:
the record of everything the libraries answer during one run (which calls
succeed, which streams the container holds, which events each poll returns,
which packet each read yields, what the decoder answers for it).  The result
is a `Run`: the ordered trace of calls and outputs the program makes, and the
value it hands to `exit` or returns.
-/

namespace VideoPlayer

/-! ## Data model -/

/-- The media kinds of `enum AVMediaType` (libavutil). -/
inductive AVMediaType where
  | UNKNOWN
  | VIDEO
  | AUDIO
  | DATA
  | SUBTITLE
  | ATTACHMENT
  deriving DecidableEq, Repr

/-- A rational number as FFmpeg stores it: two C ints. -/
structure AVRational where
  num : Int
  den : Int
  deriving DecidableEq, Repr

/-- The fields of `AVCodecParameters` that `main` reads. -/
structure AVCodecParameters where
  codec_type : AVMediaType
  codec_id : Nat
  width : Int
  height : Int
  deriving DecidableEq, Repr

/-- The fields of `AVStream` that `main` reads. -/
structure AVStream where
  codecpar : AVCodecParameters
  r_frame_rate : AVRational
  deriving DecidableEq, Repr

/-- An input event as `main` inspects it: `e.type` and `e.key.keysym.sym`. -/
structure SDL_Event where
  type : Nat
  sym : Int
  deriving DecidableEq, Repr

/-- One answer of `avcodec_receive_frame`: the returned `response` and, when it
is not negative, the picture the call has written into `pFrame`. -/
structure Received where
  response : Int
  picture : Nat
  deriving DecidableEq, Repr

/-- A packet as `av_read_frame` fills it, together with what the decoder will
answer for it: the result of `avcodec_send_packet` and the successive results
of `avcodec_receive_frame` (after the last listed one the decoder asks for more
input, `AVERROR(EAGAIN)`). -/
structure AVPacket where
  stream_index : Int
  send_response : Int
  receive : List Received
  deriving DecidableEq, Repr

/-- What the libraries answer during one turn of the playback loop: the events
`SDL_PollEvent` hands out before it returns 0, the return value of
`av_read_frame`, and the packet it has filled. -/
structure Cycle where
  events : List SDL_Event
  av_read_frame : Int
  packet : AVPacket
  deriving DecidableEq, Repr

/-- Everything outside the program that one run depends on.  A `Bool` field is
`true` when the call returns a non-NULL handle; an `Int` field is the value the
call returns.  After the last listed cycle `av_read_frame` reports end of file. -/
structure World where
  argc : Nat
  avformat_alloc_context : Bool
  avformat_open_input : Int
  avformat_find_stream_info : Int
  streams : List AVStream
  decoders : List Nat
  av_guess_frame_rate : AVRational
  avcodec_alloc_context3 : Bool
  avcodec_parameters_to_context : Int
  avcodec_open2 : Int
  av_frame_alloc_pFrame : Bool
  av_frame_alloc_pFrameRGB : Bool
  av_malloc : Bool
  sws_getContext : Bool
  SDL_Init : Int
  SDL_CreateWindow : Bool
  SDL_CreateRenderer : Bool
  SDL_CreateTexture : Bool
  av_packet_alloc : Bool
  cycles : List Cycle

/-- The messages `main` writes to standard error, one per `fprintf(stderr, ...)`
of the source, in source order. -/
inductive Message where
  | usage
  | no_format_context
  | could_not_open
  | no_stream_info
  | unsupported_codec
  | no_video_stream
  | no_codec_context
  | params_not_copied
  | codec_not_opened
  | no_frame
  | no_frame_rgb
  | sdl_not_started
  | no_window
  | no_packet
  | send_failed (response : Int)
  | receive_failed (response : Int)
  deriving DecidableEq, Repr

/-- One observable step of a run: a library call (with the result or argument
that matters) or a line of output.  `av_read_frame` carries its return value
and, when that is not negative, the packet it has filled. -/
inductive Event where
  | fprintf_stderr (m : Message)
  | printf_resolution (width height : Int)
  | printf_frame_rate (framerate : AVRational)
  | avformat_alloc_context
  | avformat_open_input
  | avformat_find_stream_info
  | avcodec_find_decoder (codec_id : Nat)
  | av_guess_frame_rate
  | avcodec_alloc_context3
  | avcodec_parameters_to_context
  | avcodec_open2
  | av_frame_alloc_pFrame
  | av_frame_alloc_pFrameRGB
  | av_image_get_buffer_size
  | av_malloc
  | av_image_fill_arrays
  | sws_getContext
  | SDL_Init
  | SDL_CreateWindow
  | SDL_CreateRenderer
  | SDL_CreateTexture
  | av_packet_alloc
  | SDL_PollEvent (e : Option SDL_Event)
  | av_read_frame (ret : Int) (filled : Option AVPacket)
  | avcodec_send_packet (response : Int)
  | avcodec_receive_frame (response : Int)
  | sws_scale (picture : Nat)
  | SDL_UpdateTexture (picture : Nat)
  | SDL_RenderClear
  | SDL_RenderCopy
  | SDL_RenderPresent
  | SDL_Delay (ms : Nat)
  | av_packet_unref
  | av_free_buffer
  | av_frame_free_pFrameRGB
  | av_frame_free_pFrame
  | avcodec_close
  | avformat_close_input
  | SDL_DestroyTexture
  | SDL_DestroyRenderer
  | SDL_DestroyWindow
  | SDL_Quit
  deriving DecidableEq, Repr

/-- The outcome of a run: the trace, and the value passed to `exit` or returned
from `main`. -/
structure Run where
  trace : List Event
  code : Int
  deriving DecidableEq, Repr

/-! ## Constants of the libraries and of the C library -/

/-- The constant `EXIT_FAILURE` of `<stdlib.h>`. -/
def EXIT_FAILURE : Int := 1

/-- The value of `AVERROR(EAGAIN)`: minus the errno value `EAGAIN`, 11 on Linux. -/
def AVERROR_EAGAIN : Int := -11

/-- The constant `AVERROR_EOF`, that is `FFERRTAG('E','O','F',' ')`. -/
def AVERROR_EOF : Int := -541478725

/-- The event type `SDL_QUIT` of `SDL_events.h`. -/
def SDL_QUIT : Nat := 0x100

/-- The event type `SDL_KEYDOWN` of `SDL_events.h`. -/
def SDL_KEYDOWN : Nat := 0x300

/-- The key code `SDLK_ESCAPE` of `SDL_keycode.h`. -/
def SDLK_ESCAPE : Int := 27

/-- The status the parent process sees for a value passed to `exit` or returned
from `main`: its low eight bits (POSIX). -/
def exitStatus (r : Run) : Int := r.code % 256

/-! ## Frame rate and delay (lines 63-70)

`fps` is a C `double`.  A finite non-zero double is kept here as a pair
`(m, e)` standing for `m * 2^e`, and the two divisions of the source are
rounded to nearest, ties to even, at 53 significant bits, as IEEE 754 binary64
does.  Exponent range is not modelled: with C `int` operands both quotients stay
far inside it.  The conversion of the quotient to `int` is defined by C only
for some frame rates (`delay_defined`); for the others the value is the one the
compiled program obtains on x86-64. -/

/-- Position of the highest set bit of `n`, found in at most `fuel` halvings. -/
def highBit : Nat → Nat → Nat
  | 0, _ => 0
  | fuel + 1, n => if n < 2 then 0 else highBit fuel (n / 2) + 1

/-- The double nearest to `n / d`, for `n` and `d` positive, as `(m, e)` with
value `m * 2^e` and `2^52 ≤ m ≤ 2^53`. -/
def roundQuotient (n d : Nat) : Nat × Int :=
  let k : Int := (highBit n n : Int) - (highBit d d : Int)
  let sh : Int := 52 - k
  let n1 : Nat := n * 2 ^ sh.toNat
  let d1 : Nat := d * 2 ^ (-sh).toNat
  let n2 : Nat := if n1 / d1 < 2 ^ 52 then 2 * n1 else n1
  let sh2 : Int := if n1 / d1 < 2 ^ 52 then sh + 1 else sh
  let q := n2 / d1
  let r := n2 % d1
  let m := if d1 < 2 * r ∨ (2 * r = d1 ∧ q % 2 = 1) then q + 1 else q
  (m, -sh2)

/-- The constant `INT_MIN` of `<limits.h>` for the 32-bit `int` of the
platform. -/
def INT_MIN : Int := -2147483648

/-- The magnitude of `1000 / fps` cut to a whole number, `fps` being
`framerate.num / (double) framerate.den` with both fields non-zero. -/
def quotient_magnitude (framerate : AVRational) : Nat :=
  let fps := roundQuotient framerate.num.natAbs framerate.den.natAbs
  let q := roundQuotient (1000 * 2 ^ (-fps.2).toNat) (fps.1 * 2 ^ fps.2.toNat)
  q.1 * 2 ^ q.2.toNat / 2 ^ (-q.2).toNat

/-- Whether C defines the conversion `(int)(1000 / fps)` of line 69: `fps` is
neither zero nor not-a-number (`num ≠ 0`) and the quotient, cut toward zero,
lies in the range of `int`.  With `den = 0` and `num ≠ 0` the frame rate is
infinite, the quotient is 0 and the conversion is defined. -/
def delay_defined (framerate : AVRational) : Bool :=
  if framerate.num = 0 then false
  else if framerate.den = 0 then true
  else if (0 < framerate.num ↔ 0 < framerate.den) then
    decide (quotient_magnitude framerate < 2 ^ 31)
  else
    decide (quotient_magnitude framerate ≤ 2 ^ 31)

/-- The quotient `1000 / fps` cut toward zero, as a whole number with its sign
(0 for an infinite frame rate, `den = 0` with `num ≠ 0`).  This is the value of
`(int)(1000 / fps)` wherever `delay_defined` holds. -/
def truncated_quotient (framerate : AVRational) : Int :=
  if framerate.den = 0 then 0
  else if (0 < framerate.num ↔ 0 < framerate.den) then
    (quotient_magnitude framerate : Int)
  else
    -(quotient_magnitude framerate : Int)

/-- The value of `(int)(1000 / fps)` with `fps = av_q2d(framerate)`, that is
`framerate.num / (double) framerate.den` (lines 68-69).  Where C leaves the
conversion to `int` undefined (`fps` zero or not a number, or a quotient outside
the range of `int`) the value is the one the conversion instruction of x86-64
delivers in all these cases, `INT_MIN`, which `SDL_Delay` receives as
2147483648. -/
def delay (framerate : AVRational) : Int :=
  if delay_defined framerate then truncated_quotient framerate else INT_MIN

/-- The `Uint32` that `SDL_Delay(delay)` receives for an `int` argument. -/
def delay_ms (d : Int) : Nat := (d % 2 ^ 32).toNat

/-! ## Stream selection (lines 30-56) -/

/-- The loop of lines 35-56 from stream `i` on, with the current value of
`video_stream_index`: the trace it produces and the final index.  A stream whose
codec has no decoder is skipped by `continue` before anything else is done with
it.  (`i` is assigned to an `int`; FFmpeg keeps `nb_streams` below `INT_MAX`, so
the value is unchanged.) -/
def select_streams (decoders : List Nat) : List AVStream → Nat → Int → List Event × Int
  | [], _, video_stream_index => ([], video_stream_index)
  | s :: rest, i, video_stream_index =>
    if s.codecpar.codec_id ∉ decoders then
      let r := select_streams decoders rest (i + 1) video_stream_index
      (.avcodec_find_decoder s.codecpar.codec_id
        :: .fprintf_stderr .unsupported_codec :: r.1, r.2)
    else if s.codecpar.codec_type = .VIDEO then
      let r := select_streams decoders rest (i + 1)
        (if video_stream_index = -1 then (i : Int) else video_stream_index)
      (.avcodec_find_decoder s.codecpar.codec_id
        :: .printf_resolution s.codecpar.width s.codecpar.height :: r.1, r.2)
    else
      let r := select_streams decoders rest (i + 1) video_stream_index
      (.avcodec_find_decoder s.codecpar.codec_id :: r.1, r.2)

/-- The stream `pFormatContext->streams[video_stream_index]` of line 63 (the
index is that of a listed stream whenever the line is reached). -/
def video_stream (streams : List AVStream) (video_stream_index : Int) : AVStream :=
  streams[video_stream_index.toNat]?.getD ⟨⟨.UNKNOWN, 0, 0, 0⟩, ⟨0, 0⟩⟩

/-- Whether line 65 sends the program to `av_guess_frame_rate`. -/
def needs_guess (s : AVStream) : Bool :=
  decide (s.r_frame_rate.num = 0 ∨ s.r_frame_rate.den = 0)

/-- The `framerate` of lines 64-67. -/
def framerate (w : World) (s : AVStream) : AVRational :=
  if needs_guess s then w.av_guess_frame_rate else s.r_frame_rate

/-! ## Start-up (lines 8-138) -/

/-- What the playback loop inherits from start-up: the trace so far, the
selected index and the `delay` of line 69. -/
structure Setup where
  trace : List Event
  video_stream_index : Int
  delay : Int
  deriving DecidableEq, Repr

/-- Lines 72-138: codec context, frames, RGB buffer, scaler, SDL, window,
renderer, texture, packet.  The results of `av_malloc`, `sws_getContext`,
`SDL_CreateRenderer` and `SDL_CreateTexture` are not tested by the source. -/
def acquire (w : World) (t : List Event) (video_stream_index : Int) (d : Int) :
    Except Run Setup :=
  let t := t ++ [.avcodec_alloc_context3]
  if !w.avcodec_alloc_context3 then
    .error ⟨t ++ [.fprintf_stderr .no_codec_context], EXIT_FAILURE⟩
  else
  let t := t ++ [.avcodec_parameters_to_context]
  if w.avcodec_parameters_to_context < 0 then
    .error ⟨t ++ [.fprintf_stderr .params_not_copied], EXIT_FAILURE⟩
  else
  let t := t ++ [.avcodec_open2]
  if w.avcodec_open2 < 0 then
    .error ⟨t ++ [.fprintf_stderr .codec_not_opened], EXIT_FAILURE⟩
  else
  let t := t ++ [.av_frame_alloc_pFrame]
  if !w.av_frame_alloc_pFrame then
    .error ⟨t ++ [.fprintf_stderr .no_frame], EXIT_FAILURE⟩
  else
  let t := t ++ [.av_frame_alloc_pFrameRGB]
  if !w.av_frame_alloc_pFrameRGB then
    .error ⟨t ++ [.fprintf_stderr .no_frame_rgb], EXIT_FAILURE⟩
  else
  let t := t ++ [.av_image_get_buffer_size, .av_malloc, .av_image_fill_arrays,
    .sws_getContext, .SDL_Init]
  if w.SDL_Init ≠ 0 then
    .error ⟨t ++ [.fprintf_stderr .sdl_not_started], EXIT_FAILURE⟩
  else
  let t := t ++ [.SDL_CreateWindow]
  if !w.SDL_CreateWindow then
    .error ⟨t ++ [.fprintf_stderr .no_window], EXIT_FAILURE⟩
  else
  let t := t ++ [.SDL_CreateRenderer, .SDL_CreateTexture, .av_packet_alloc]
  if !w.av_packet_alloc then
    .error ⟨t ++ [.fprintf_stderr .no_packet], EXIT_FAILURE⟩
  else
    .ok ⟨t, video_stream_index, d⟩

/-- Lines 8-138: everything before the playback loop.  An error is a run that
has ended in `exit(EXIT_FAILURE)`. -/
def startup (w : World) : Except Run Setup :=
  if w.argc < 2 then
    .error ⟨[.fprintf_stderr .usage], EXIT_FAILURE⟩
  else
  let t := [.avformat_alloc_context]
  if !w.avformat_alloc_context then
    .error ⟨t ++ [.fprintf_stderr .no_format_context], EXIT_FAILURE⟩
  else
  let t := t ++ [.avformat_open_input]
  if w.avformat_open_input ≠ 0 then
    .error ⟨t ++ [.fprintf_stderr .could_not_open], EXIT_FAILURE⟩
  else
  let t := t ++ [.avformat_find_stream_info]
  if w.avformat_find_stream_info < 0 then
    .error ⟨t ++ [.fprintf_stderr .no_stream_info], EXIT_FAILURE⟩
  else
  let sel := select_streams w.decoders w.streams 0 (-1)
  let t := t ++ sel.1
  if sel.2 = -1 then
    .error ⟨t ++ [.fprintf_stderr .no_video_stream], EXIT_FAILURE⟩
  else
  let s := video_stream w.streams sel.2
  let t := t ++ (if needs_guess s then [.av_guess_frame_rate] else [])
    ++ [.printf_frame_rate (framerate w s)]
  acquire w t sel.2 (delay (framerate w s))

/-! ## Playback loop (lines 140-196) -/

/-- The value of `quit` after the poll loop of lines 144-152 has seen the given
events, starting from the given value. -/
def poll_events : Bool → List SDL_Event → Bool
  | quit, [] => quit
  | quit, e :: es =>
    if e.type = SDL_QUIT then poll_events true es
    else if e.type = SDL_KEYDOWN then
      if e.sym = SDLK_ESCAPE then poll_events true es else poll_events quit es
    else poll_events quit es

/-- The calls of `SDL_PollEvent` in one poll loop: one per event handed out,
and the last one, which returns 0. -/
def poll_trace (events : List SDL_Event) : List Event :=
  events.map (fun e => Event.SDL_PollEvent (some e)) ++ [.SDL_PollEvent none]

/-- The drain loop of lines 168-190 on the decoder's remaining answers: its
trace, and the response the source returns from `main` when it does so. -/
def receive_frames : List Received → List Event × Option Int
  | [] => ([.avcodec_receive_frame AVERROR_EAGAIN], none)
  | r :: rs =>
    if r.response = AVERROR_EAGAIN ∨ r.response = AVERROR_EOF then
      ([.avcodec_receive_frame r.response], none)
    else if r.response < 0 then
      ([.avcodec_receive_frame r.response, .fprintf_stderr (.receive_failed r.response)],
        some r.response)
    else
      let shown : List Event :=
        if 0 ≤ r.response then
          [.sws_scale r.picture, .SDL_UpdateTexture r.picture, .SDL_RenderClear,
            .SDL_RenderCopy, .SDL_RenderPresent]
        else []
      if 0 ≤ r.response then
        let rest := receive_frames rs
        (.avcodec_receive_frame r.response :: shown ++ rest.1, rest.2)
      else
        (.avcodec_receive_frame r.response :: shown, none)

/-- How the playback loop is left: its condition `!quit` fails, `av_read_frame`
fails (`break`), or line 176 returns from `main`. -/
inductive Stop where
  | quit
  | read_failed (ret : Int)
  | decode_fault (response : Int)
  deriving DecidableEq, Repr

/-- The loop of lines 143-196, entered with the given value of `quit`. -/
def playback_loop (video_stream_index : Int) (d : Int) : Bool → List Cycle → List Event × Stop
  | true, _ => ([], .quit)
  | false, [] =>
    (poll_trace [] ++ [.av_read_frame AVERROR_EOF none], .read_failed AVERROR_EOF)
  | false, c :: cs =>
    let quit := poll_events false c.events
    if c.av_read_frame < 0 then
      (poll_trace c.events ++ [.av_read_frame c.av_read_frame none],
        .read_failed c.av_read_frame)
    else
    let t := poll_trace c.events ++ [.av_read_frame c.av_read_frame (some c.packet)]
    if c.packet.stream_index = video_stream_index then
      let response := c.packet.send_response
      let t := t ++ [.avcodec_send_packet response]
      if response < 0 then
        let rest := playback_loop video_stream_index d quit cs
        (t ++ [.fprintf_stderr (.send_failed response)] ++ rest.1, rest.2)
      else
        let drained := receive_frames c.packet.receive
        match drained.2 with
        | some fault => (t ++ drained.1, .decode_fault fault)
        | none =>
          let rest := playback_loop video_stream_index d quit cs
          (t ++ drained.1 ++ [.SDL_Delay (delay_ms d), .av_packet_unref] ++ rest.1, rest.2)
    else
      let rest := playback_loop video_stream_index d quit cs
      (t ++ [.av_packet_unref] ++ rest.1, rest.2)

/-! ## Shutdown (lines 198-211) and `main` -/

/-- The release calls of lines 198-209, in source order. -/
def shutdown : List Event :=
  [.av_free_buffer, .av_frame_free_pFrameRGB, .av_frame_free_pFrame, .avcodec_close,
    .avformat_close_input, .SDL_DestroyTexture, .SDL_DestroyRenderer, .SDL_DestroyWindow,
    .SDL_Quit]

/-- The function `main` of `src/main.c`. -/
def main (w : World) : Run :=
  match startup w with
  | .error r => r
  | .ok s =>
    let played := playback_loop s.video_stream_index s.delay false w.cycles
    match played.2 with
    | .decode_fault response => ⟨s.trace ++ played.1, response⟩
    | _ => ⟨s.trace ++ played.1 ++ shutdown, 0⟩

/-! ## Observations on a trace -/

/-- The lines written to standard output, in order. -/
def stdout (t : List Event) : List Event :=
  t.filter fun e => match e with
    | .printf_resolution _ _ => true
    | .printf_frame_rate _ => true
    | _ => false

/-- The texture uploads and the presentations, in order. -/
def shown (t : List Event) : List Event :=
  t.filter fun e => match e with
    | .SDL_UpdateTexture _ => true
    | .SDL_RenderPresent => true
    | _ => false

/-- The presentations and the sleeps, in order. -/
def paced (t : List Event) : List Event :=
  t.filter fun e => match e with
    | .SDL_RenderPresent => true
    | .SDL_Delay _ => true
    | _ => false

/-- The sleeps, in order. -/
def sleeps (t : List Event) : List Event :=
  t.filter fun e => match e with
    | .SDL_Delay _ => true
    | _ => false

/-- The calls of `av_read_frame`, in order. -/
def reads (t : List Event) : List Event :=
  t.filter fun e => match e with
    | .av_read_frame _ _ => true
    | _ => false

/-- The packets that `av_read_frame` has filled, in read order. -/
def packets_read (t : List Event) : List AVPacket :=
  t.filterMap fun e => match e with
    | .av_read_frame _ (some p) => some p
    | _ => none

/-- A call that feeds or drains the decoder, converts, uploads or presents. -/
def is_playback_call : Event → Bool
  | .avcodec_send_packet _ => true
  | .avcodec_receive_frame _ => true
  | .sws_scale _ => true
  | .SDL_UpdateTexture _ => true
  | .SDL_RenderClear => true
  | .SDL_RenderCopy => true
  | .SDL_RenderPresent => true
  | _ => false

/-- The resources `main` acquires before the loop. -/
inductive Resource where
  | format_context
  | codec_context
  | frame
  | frame_rgb
  | rgb_buffer
  | scaler_context
  | sdl
  | window
  | renderer
  | texture
  | packet
  deriving DecidableEq, Repr

/-- The resources acquired, in order of acquisition. -/
def acquisitions (t : List Event) : List Resource :=
  t.filterMap fun e => match e with
    | .avformat_alloc_context => some .format_context
    | .avcodec_alloc_context3 => some .codec_context
    | .av_frame_alloc_pFrame => some .frame
    | .av_frame_alloc_pFrameRGB => some .frame_rgb
    | .av_malloc => some .rgb_buffer
    | .sws_getContext => some .scaler_context
    | .SDL_Init => some .sdl
    | .SDL_CreateWindow => some .window
    | .SDL_CreateRenderer => some .renderer
    | .SDL_CreateTexture => some .texture
    | .av_packet_alloc => some .packet
    | _ => none

/-- The resources released, in order of release. -/
def releases (t : List Event) : List Resource :=
  t.filterMap fun e => match e with
    | .av_free_buffer => some .rgb_buffer
    | .av_frame_free_pFrameRGB => some .frame_rgb
    | .av_frame_free_pFrame => some .frame
    | .avcodec_close => some .codec_context
    | .avformat_close_input => some .format_context
    | .SDL_DestroyTexture => some .texture
    | .SDL_DestroyRenderer => some .renderer
    | .SDL_DestroyWindow => some .window
    | .SDL_Quit => some .sdl
    | _ => none

/-- An event that lines 8-138 can produce: a start-up call, a message on
standard error, or a line of standard output. -/
def before_loop : Event → Bool
  | .fprintf_stderr _ => true
  | .printf_resolution _ _ => true
  | .printf_frame_rate _ => true
  | .avformat_alloc_context => true
  | .avformat_open_input => true
  | .avformat_find_stream_info => true
  | .avcodec_find_decoder _ => true
  | .av_guess_frame_rate => true
  | .avcodec_alloc_context3 => true
  | .avcodec_parameters_to_context => true
  | .avcodec_open2 => true
  | .av_frame_alloc_pFrame => true
  | .av_frame_alloc_pFrameRGB => true
  | .av_image_get_buffer_size => true
  | .av_malloc => true
  | .av_image_fill_arrays => true
  | .sws_getContext => true
  | .SDL_Init => true
  | .SDL_CreateWindow => true
  | .SDL_CreateRenderer => true
  | .SDL_CreateTexture => true
  | .av_packet_alloc => true
  | _ => false

/-- An event that the playback loop of lines 143-196 can produce. -/
def in_loop : Event → Bool
  | .fprintf_stderr _ => true
  | .SDL_PollEvent _ => true
  | .av_read_frame _ _ => true
  | .avcodec_send_packet _ => true
  | .avcodec_receive_frame _ => true
  | .sws_scale _ => true
  | .SDL_UpdateTexture _ => true
  | .SDL_RenderClear => true
  | .SDL_RenderCopy => true
  | .SDL_RenderPresent => true
  | .SDL_Delay _ => true
  | .av_packet_unref => true
  | _ => false

/-- The trace of start-up, whether it ends in `exit` or reaches the loop. -/
def startup_trace (w : World) : List Event :=
  match startup w with
  | .error r => r.trace
  | .ok s => s.trace

/-- The calls of lines 72-134 when none of the tested ones fails. -/
def acquire_calls : List Event :=
  [.avcodec_alloc_context3, .avcodec_parameters_to_context, .avcodec_open2,
    .av_frame_alloc_pFrame, .av_frame_alloc_pFrameRGB, .av_image_get_buffer_size,
    .av_malloc, .av_image_fill_arrays, .sws_getContext, .SDL_Init, .SDL_CreateWindow,
    .SDL_CreateRenderer, .SDL_CreateTexture, .av_packet_alloc]

/-- The index that the selection loop leaves in `video_stream_index`. -/
def video_stream_index (w : World) : Int :=
  (select_streams w.decoders w.streams 0 (-1)).2

/-! ## The words of the specification -/

/-- A stream qualifies for selection: its media type is video and a decoder is
available for its codec. -/
def qualifies (decoders : List Nat) (s : AVStream) : Prop :=
  s.codecpar.codec_type = .VIDEO ∧ s.codecpar.codec_id ∈ decoders

instance (decoders : List Nat) (s : AVStream) : Decidable (qualifies decoders s) :=
  inferInstanceAs (Decidable (_ ∧ _))

/-- The resolution line of a stream. -/
def resolution_line (s : AVStream) : Event :=
  .printf_resolution s.codecpar.width s.codecpar.height

/-- The packet belongs to the selected stream and the decoder accepts it. -/
def accepted (video_stream_index : Int) (p : AVPacket) : Bool :=
  decide (p.stream_index = video_stream_index ∧ 0 ≤ p.send_response)

/-- The packet belongs to the selected stream. -/
def of_video_stream (video_stream_index : Int) (p : AVPacket) : Bool :=
  decide (p.stream_index = video_stream_index)

/-- The frames the decoder emits for a packet: the pictures of its answers up
to the first negative one. -/
def emitted (p : AVPacket) : List Nat :=
  (p.receive.takeWhile fun r => decide (0 ≤ r.response)).map fun r => r.picture

/-- The drain of the packet meets a decode fault: the first negative answer of
the decoder is neither `AVERROR(EAGAIN)` nor `AVERROR_EOF`. -/
def faulty (p : AVPacket) : Bool :=
  match p.receive.dropWhile fun r => decide (0 ≤ r.response) with
  | [] => false
  | r :: _ => decide (r.response ≠ AVERROR_EAGAIN ∧ r.response ≠ AVERROR_EOF)

/-- What pacing asks of a packet that is drained: one presentation for each
frame it yields, then one sleep of `ms` milliseconds unless the drain has met a
decode fault (which ends the run). -/
def present_then_sleep (ms : Nat) (p : AVPacket) : List Event :=
  List.replicate (emitted p).length Event.SDL_RenderPresent
    ++ (if faulty p then [] else [.SDL_Delay ms])

/-- One upload followed by one presentation for each of the given frames. -/
def upload_present (frames : List Nat) : List Event :=
  frames.flatMap fun f => [.SDL_UpdateTexture f, .SDL_RenderPresent]

/-- The poll loop sets `quit`: one of the events is a window close or a press
of the escape key. -/
def quit_requested (events : List SDL_Event) : Bool :=
  events.any fun e => decide (e.type = SDL_QUIT ∨ (e.type = SDL_KEYDOWN ∧ e.sym = SDLK_ESCAPE))

/-- What happens around one turn of the loop, with the events split by the
moment they are posted: before the poll loop of this turn has emptied the
queue, or later in the turn (while the packet is read, decoded, presented, or
during the sleep). -/
structure Posted where
  before_poll : List SDL_Event
  after_poll : List SDL_Event
  av_read_frame : Int
  packet : AVPacket
  deriving DecidableEq, Repr

/-- The SDL event queue: the poll loop of a turn hands out what is pending from
the turn before, then what is posted before it finishes. -/
def deliver : List SDL_Event → List Posted → List Cycle
  | _, [] => []
  | pending, c :: cs =>
    ⟨pending ++ c.before_poll, c.av_read_frame, c.packet⟩ :: deliver c.after_poll cs

/-- The turns in which every packet is of stream `video_stream_index`, is
accepted and yields exactly one frame, the pictures being the given ones; no
event is posted. -/
def one_frame_cycles (video_stream_index : Int) (pictures : List Nat) : List Cycle :=
  pictures.map fun i => ⟨[], 0, ⟨video_stream_index, 0, [⟨0, i⟩]⟩⟩

/-! ## Sample runs -/

/-- An audio stream with codec 86018. -/
def audio_stream : AVStream :=
  AVStream.mk (AVCodecParameters.mk AVMediaType.AUDIO 86018 0 0) ⟨0, 0⟩

/-- Video stream A: codec 27, 640 x 480, 25 frames per second. -/
def video_A : AVStream := ⟨⟨.VIDEO, 27, 640, 480⟩, ⟨25, 1⟩⟩

/-- Video stream B: codec 173, 1280 x 720, 30 frames per second. -/
def video_B : AVStream := ⟨⟨.VIDEO, 173, 1280, 720⟩, ⟨30, 1⟩⟩

/-- A container `[audio, video-A, video-B]`, all three decodable, whose 25 fps
video holds two packets of one frame each; every library call succeeds and no
event is posted. -/
def demo_world : World where
  argc := 2
  avformat_alloc_context := true
  avformat_open_input := 0
  avformat_find_stream_info := 0
  streams := [audio_stream, video_A, video_B]
  decoders := [86018, 27, 173]
  av_guess_frame_rate := ⟨0, 0⟩
  avcodec_alloc_context3 := true
  avcodec_parameters_to_context := 0
  avcodec_open2 := 0
  av_frame_alloc_pFrame := true
  av_frame_alloc_pFrameRGB := true
  av_malloc := true
  sws_getContext := true
  SDL_Init := 0
  SDL_CreateWindow := true
  SDL_CreateRenderer := true
  SDL_CreateTexture := true
  av_packet_alloc := true
  cycles := one_frame_cycles 1 [0, 1]

/-- What start-up hands to the loop in `demo_world`. -/
def demo_setup : Setup where
  trace := [.avformat_alloc_context, .avformat_open_input, .avformat_find_stream_info,
    .avcodec_find_decoder 86018, .avcodec_find_decoder 27, .printf_resolution 640 480,
    .avcodec_find_decoder 173, .printf_resolution 1280 720, .printf_frame_rate ⟨25, 1⟩,
    .avcodec_alloc_context3, .avcodec_parameters_to_context, .avcodec_open2,
    .av_frame_alloc_pFrame, .av_frame_alloc_pFrameRGB, .av_image_get_buffer_size,
    .av_malloc, .av_image_fill_arrays, .sws_getContext, .SDL_Init, .SDL_CreateWindow,
    .SDL_CreateRenderer, .SDL_CreateTexture, .av_packet_alloc]
  video_stream_index := 1
  delay := 40

/-- The container of `demo_world` on a system that can decode the audio codec
only. -/
def no_decoder_world : World :=
  { demo_world with decoders := [86018] }

/-- A container whose first video stream (codec 226, 640 x 360) has no decoder
and whose second is video A. -/
def undecodable_first_world : World :=
  { demo_world with
    streams := [⟨⟨.VIDEO, 226, 640, 360⟩, ⟨25, 1⟩⟩, video_A]
    decoders := [27] }

/-- The constant `AVERROR_INVALIDDATA`, that is `FFERRTAG('I','N','D','A')`. -/
def AVERROR_INVALIDDATA : Int := -1094995529

/-- The run of `demo_world` in which the decoder answers the first
`avcodec_receive_frame` with `AVERROR_INVALIDDATA`. -/
def fault_world : World :=
  { demo_world with cycles := [⟨[], 0, ⟨1, 0, [⟨AVERROR_INVALIDDATA, 0⟩]⟩⟩] }

/-- The run of `demo_world` in which `SDL_CreateRenderer` returns NULL (and so
does `SDL_CreateTexture`, which is given the NULL renderer). -/
def no_renderer_world : World :=
  { demo_world with SDL_CreateRenderer := false, SDL_CreateTexture := false }

/-- The run of `demo_world` in which `avcodec_send_packet` rejects the first of
the two packets (whatever the decoder would have answered for it). -/
def rejecting_world : World :=
  { demo_world with
    cycles := [⟨[], 0, ⟨1, AVERROR_INVALIDDATA, [⟨0, 0⟩]⟩⟩, ⟨[], 0, ⟨1, 0, [⟨0, 1⟩]⟩⟩] }

/-- Three turns with one video packet of one frame each; the window is closed
during the first turn, after its poll loop. -/
def late_quit_posts : List Posted :=
  [⟨[], [⟨SDL_QUIT, 0⟩], 0, ⟨1, 0, [⟨0, 0⟩]⟩⟩,
    ⟨[], [], 0, ⟨1, 0, [⟨0, 1⟩]⟩⟩,
    ⟨[], [], 0, ⟨1, 0, [⟨0, 2⟩]⟩⟩]

/-- The run of `demo_world` over `late_quit_posts`. -/
def late_quit_world : World :=
  { demo_world with cycles := deliver [] late_quit_posts }

/-! # Theorems -/

/-! ## Stream selection -/

theorem select_streams_cons_index (decoders : List Nat) (a : AVStream) (l : List AVStream)
    (k : Nat) (idx : Int) :
    (select_streams decoders (a :: l) k idx).2 =
      (select_streams decoders l (k + 1)
        (if qualifies decoders a ∧ idx = -1 then (k : Int) else idx)).2 := by
  simp only [select_streams, qualifies]
  by_cases h1 : a.codecpar.codec_id ∈ decoders <;>
    by_cases h2 : a.codecpar.codec_type = AVMediaType.VIDEO <;>
    by_cases h3 : idx = -1 <;> simp [h1, h2, h3]

theorem select_streams_index_kept (decoders : List Nat) (l : List AVStream) (k : Nat)
    (idx : Int) (h : idx ≠ -1) : (select_streams decoders l k idx).2 = idx := by
  induction l generalizing k with
  | nil => rfl
  | cons a l ih => rw [select_streams_cons_index, if_neg (fun c => h c.2), ih]

theorem select_streams_none (decoders : List Nat) (l : List AVStream) (k : Nat) (idx : Int)
    (h : ∀ s ∈ l, ¬ qualifies decoders s) : (select_streams decoders l k idx).2 = idx := by
  induction l generalizing k with
  | nil => rfl
  | cons a l ih =>
    have ha : ¬ qualifies decoders a := h a (List.mem_cons_self a l)
    rw [select_streams_cons_index, if_neg (fun c => ha c.1)]
    exact ih (k + 1) (fun s hs => h s (List.mem_cons_of_mem a hs))

theorem select_streams_first (decoders : List Nat) (l : List AVStream) (k i : Nat)
    (s : AVStream) (hs : l[i]? = some s) (hq : qualifies decoders s)
    (hmin : ∀ j t, j < i → l[j]? = some t → ¬ qualifies decoders t) :
    (select_streams decoders l k (-1)).2 = ((k + i : Nat) : Int) := by
  induction l generalizing k i with
  | nil => simp at hs
  | cons a l ih =>
    rw [select_streams_cons_index]
    cases i with
    | zero =>
      simp at hs
      subst hs
      rw [if_pos ⟨hq, rfl⟩]
      have hk : ((k : Nat) : Int) ≠ -1 := by omega
      simpa using select_streams_index_kept decoders l (k + 1) k hk
    | succ i =>
      have ha : ¬ qualifies decoders a := hmin 0 a (Nat.succ_pos i) (by simp)
      have hs2 : l[i]? = some s := by simpa using hs
      have hmin2 : ∀ j t, j < i → l[j]? = some t → ¬ qualifies decoders t := by
        intro j t hj ht
        exact hmin (j + 1) t (Nat.succ_lt_succ hj) (by simpa using ht)
      rw [if_neg (fun c => ha c.1), ih (k + 1) i hs2 hmin2]
      push_cast
      ring

/-! ## Start-up -/

theorem select_streams_before_loop (decoders : List Nat) (l : List AVStream) (k : Nat)
    (idx : Int) : ∀ e ∈ (select_streams decoders l k idx).1, before_loop e = true := by
  induction l generalizing k idx with
  | nil => intro e he; simp [select_streams] at he
  | cons a l ih =>
    intro e he
    simp only [select_streams] at he
    split_ifs at he <;> simp only [List.mem_cons] at he <;>
      rcases he with rfl | he <;> first
        | rfl
        | exact ih _ _ e he
        | (rcases he with rfl | he <;> first | rfl | exact ih _ _ e he)

theorem select_streams_stdout (decoders : List Nat) (l : List AVStream) (k : Nat)
    (idx : Int) :
    stdout (select_streams decoders l k idx).1
      = (l.filter fun s => decide (qualifies decoders s)).map resolution_line := by
  induction l generalizing k idx with
  | nil => rfl
  | cons a l ih =>
    simp only [select_streams, qualifies]
    by_cases h1 : a.codecpar.codec_id ∈ decoders <;>
      by_cases h2 : a.codecpar.codec_type = AVMediaType.VIDEO <;>
      simp [h1, h2, stdout, List.filter_cons, resolution_line] <;>
      simpa [stdout, qualifies] using ih _ _

theorem acquire_ok (w : World) (t : List Event) (i d : Int) (s : Setup)
    (h : acquire w t i d = .ok s) : s = ⟨t ++ acquire_calls, i, d⟩ := by
  unfold acquire at h
  simp only [] at h
  split_ifs at h
  simp only [Except.ok.injEq] at h
  rw [← h]
  simp [acquire_calls]

theorem acquire_calls_before_loop : ∀ e ∈ acquire_calls, before_loop e = true := by
  decide

theorem acquire_error (w : World) (t : List Event) (i d : Int) (r : Run)
    (h : acquire w t i d = .error r) :
    r.code = EXIT_FAILURE ∧ ∃ ex, r.trace = t ++ ex
      ∧ ∀ e ∈ ex, (∃ m, e = .fprintf_stderr m) ∨ e ∈ acquire_calls := by
  unfold acquire at h
  simp only [] at h
  split_ifs at h <;> simp only [Except.error.injEq] at h <;> subst h <;>
    refine ⟨rfl, ?_⟩ <;> simp only [List.append_assoc] <;>
    refine ⟨_, rfl, ?_⟩ <;> intro e he <;> simp at he <;>
    rcases he with rfl | rfl | rfl | rfl | rfl | rfl | rfl | rfl | rfl | rfl | rfl | rfl | rfl | rfl | rfl <;>
    first
      | exact Or.inl ⟨_, rfl⟩
      | exact Or.inr (by decide)

theorem select_streams_filterMap {β : Type} (f : Event → Option β)
    (h1 : ∀ id, f (.avcodec_find_decoder id) = none) (h2 : ∀ m, f (.fprintf_stderr m) = none)
    (h3 : ∀ x y, f (.printf_resolution x y) = none) (decoders : List Nat)
    (l : List AVStream) (k : Nat) (idx : Int) :
    (select_streams decoders l k idx).1.filterMap f = [] := by
  induction l generalizing k idx with
  | nil => rfl
  | cons a l ih =>
    simp only [select_streams]
    split_ifs <;> simp [List.filterMap_cons, h1, h2, h3, ih]

/-- The trace of lines 13-70 when a stream is selected. -/
theorem startup_selected (w : World) (h1 : 2 ≤ w.argc) (h2 : w.avformat_alloc_context = true)
    (h3 : w.avformat_open_input = 0) (h4 : 0 ≤ w.avformat_find_stream_info)
    (h5 : video_stream_index w ≠ -1) :
    startup w = acquire w
      ([.avformat_alloc_context, .avformat_open_input, .avformat_find_stream_info]
        ++ (select_streams w.decoders w.streams 0 (-1)).1
        ++ (if needs_guess (video_stream w.streams (video_stream_index w))
            then [.av_guess_frame_rate] else [])
        ++ [.printf_frame_rate (framerate w (video_stream w.streams (video_stream_index w)))])
      (video_stream_index w)
      (delay (framerate w (video_stream w.streams (video_stream_index w)))) := by
  unfold video_stream_index at h5 ⊢
  have h1' : ¬ w.argc < 2 := by omega
  have h4' : ¬ w.avformat_find_stream_info < 0 := by omega
  simp [startup, h1', h2, h3, h4', h5]

theorem startup_not_selected (w : World) (h1 : 2 ≤ w.argc)
    (h2 : w.avformat_alloc_context = true) (h3 : w.avformat_open_input = 0)
    (h4 : 0 ≤ w.avformat_find_stream_info) (h5 : video_stream_index w = -1) :
    startup w = .error
      ⟨[.avformat_alloc_context, .avformat_open_input, .avformat_find_stream_info]
        ++ (select_streams w.decoders w.streams 0 (-1)).1
        ++ [.fprintf_stderr .no_video_stream], EXIT_FAILURE⟩ := by
  unfold video_stream_index at h5
  have h1' : ¬ w.argc < 2 := by omega
  have h4' : ¬ w.avformat_find_stream_info < 0 := by omega
  simp [startup, h1', h2, h3, h4', h5]

/-- What a start-up that reaches the loop has gone through. -/
theorem startup_ok (w : World) (s : Setup) (h : startup w = .ok s) :
    2 ≤ w.argc ∧ w.avformat_alloc_context = true ∧ w.avformat_open_input = 0
      ∧ 0 ≤ w.avformat_find_stream_info ∧ video_stream_index w ≠ -1
      ∧ s.video_stream_index = video_stream_index w
      ∧ s.delay = delay (framerate w (video_stream w.streams (video_stream_index w)))
      ∧ s.trace = [.avformat_alloc_context, .avformat_open_input, .avformat_find_stream_info]
        ++ (select_streams w.decoders w.streams 0 (-1)).1
        ++ (if needs_guess (video_stream w.streams (video_stream_index w))
            then [.av_guess_frame_rate] else [])
        ++ [.printf_frame_rate (framerate w (video_stream w.streams (video_stream_index w)))]
        ++ acquire_calls := by
  by_cases h1 : w.argc < 2
  · simp [startup, h1] at h
  by_cases h2 : w.avformat_alloc_context = true
  swap
  · simp [startup, h1, h2] at h
  by_cases h3 : w.avformat_open_input = 0
  swap
  · simp [startup, h1, h2, h3] at h
  by_cases h4 : w.avformat_find_stream_info < 0
  · simp [startup, h1, h2, h3, h4] at h
  by_cases h5 : video_stream_index w = -1
  · rw [startup_not_selected w (by omega) h2 h3 (by omega) h5] at h
    cases h
  rw [startup_selected w (by omega) h2 h3 (by omega) h5] at h
  have e := acquire_ok w _ _ _ s h
  subst e
  exact ⟨by omega, h2, h3, by omega, h5, rfl, rfl, rfl⟩

/-- A start-up that ends in `exit` passes `EXIT_FAILURE`. -/
theorem startup_error_code (w : World) (r : Run) (h : startup w = .error r) :
    r.code = EXIT_FAILURE := by
  by_cases h1 : w.argc < 2
  · simp [startup, h1] at h; subst h; rfl
  by_cases h2 : w.avformat_alloc_context = true
  swap
  · simp [startup, h1, h2] at h; subst h; rfl
  by_cases h3 : w.avformat_open_input = 0
  swap
  · simp [startup, h1, h2, h3] at h; subst h; rfl
  by_cases h4 : w.avformat_find_stream_info < 0
  · simp [startup, h1, h2, h3, h4] at h; subst h; rfl
  by_cases h5 : video_stream_index w = -1
  · rw [startup_not_selected w (by omega) h2 h3 (by omega) h5] at h
    cases h
    rfl
  rw [startup_selected w (by omega) h2 h3 (by omega) h5] at h
  exact (acquire_error w _ _ _ r h).1

/-- Start-up produces start-up events only. -/
theorem startup_trace_before_loop (w : World) :
    ∀ e ∈ startup_trace w, before_loop e = true := by
  unfold startup_trace
  by_cases h1 : w.argc < 2
  · simp [startup, h1, before_loop]
  by_cases h2 : w.avformat_alloc_context = true
  swap
  · simp [startup, h1, h2, before_loop]
  by_cases h3 : w.avformat_open_input = 0
  swap
  · simp [startup, h1, h2, h3, before_loop]
  by_cases h4 : w.avformat_find_stream_info < 0
  · simp [startup, h1, h2, h3, h4, before_loop]
  have hsel := select_streams_before_loop w.decoders w.streams 0 (-1)
  by_cases h5 : video_stream_index w = -1
  · rw [startup_not_selected w (by omega) h2 h3 (by omega) h5]
    intro e he
    simp only [List.mem_append, List.mem_cons, List.mem_singleton, List.not_mem_nil,
      or_false] at he
    rcases he with ((rfl | rfl | rfl) | he) | rfl <;> first | rfl | exact hsel e he
  rw [startup_selected w (by omega) h2 h3 (by omega) h5]
  have hpre : ∀ e ∈ ([.avformat_alloc_context, .avformat_open_input, .avformat_find_stream_info]
        ++ (select_streams w.decoders w.streams 0 (-1)).1
        ++ (if needs_guess (video_stream w.streams (video_stream_index w))
            then [.av_guess_frame_rate] else [])
        ++ [.printf_frame_rate (framerate w (video_stream w.streams (video_stream_index w)))]
        : List Event), before_loop e = true := by
    intro e he
    simp only [List.mem_append, List.mem_cons, List.mem_singleton, List.not_mem_nil,
      or_false] at he
    rcases he with (((rfl | rfl | rfl) | he) | he) | rfl
    · rfl
    · rfl
    · rfl
    · exact hsel e he
    · split_ifs at he
      · simp at he; subst he; rfl
      · simp at he
    · rfl
  cases hacq : acquire w _ (video_stream_index w)
      (delay (framerate w (video_stream w.streams (video_stream_index w)))) with
  | error r =>
    obtain ⟨-, ex, hex, hexk⟩ := acquire_error w _ _ _ r hacq
    simp only [hex]
    intro e he
    rcases List.mem_append.mp he with he | he
    · exact hpre e he
    · rcases hexk e he with ⟨m, rfl⟩ | hm
      · rfl
      · exact acquire_calls_before_loop e hm
  | ok s =>
    have e := acquire_ok w _ _ _ s hacq
    subst e
    intro e he
    rcases List.mem_append.mp he with he | he
    · exact hpre e he
    · exact acquire_calls_before_loop e he

/-! ## The poll loop -/

theorem poll_events_true (events : List SDL_Event) : poll_events true events = true := by
  induction events with
  | nil => rfl
  | cons e es ih => simp only [poll_events]; split_ifs <;> exact ih

theorem poll_events_eq (events : List SDL_Event) :
    poll_events false events = quit_requested events := by
  induction events with
  | nil => rfl
  | cons e es ih =>
    simp only [poll_events, quit_requested, List.any_cons]
    by_cases h1 : e.type = SDL_QUIT
    · simp [h1, poll_events_true]
    · by_cases h2 : e.type = SDL_KEYDOWN
      · by_cases h3 : e.sym = SDLK_ESCAPE
        · simp [h1, h2, h3, poll_events_true]
        · simpa [h1, h2, h3, quit_requested] using ih
      · simpa [h1, h2, quit_requested] using ih

theorem poll_trace_filter (p : Event → Bool) (hp : ∀ e, p (.SDL_PollEvent e) = false)
    (events : List SDL_Event) : (poll_trace events).filter p = [] := by
  rw [List.filter_eq_nil_iff]
  intro e he
  simp only [poll_trace, List.mem_append, List.mem_map, List.mem_singleton] at he
  rcases he with ⟨x, -, rfl⟩ | rfl <;> simp [hp]

theorem poll_trace_filterMap {β : Type} (f : Event → Option β)
    (hf : ∀ e, f (.SDL_PollEvent e) = none) (events : List SDL_Event) :
    (poll_trace events).filterMap f = [] := by
  rw [List.filterMap_eq_nil_iff]
  intro e he
  simp only [poll_trace, List.mem_append, List.mem_map, List.mem_singleton] at he
  rcases he with ⟨x, -, rfl⟩ | rfl <;> simp [hf]

/-! ## The drain loop -/

theorem receive_frames_cons (r : Received) (rs : List Received) :
    receive_frames (r :: rs) =
      if 0 ≤ r.response then
        (.avcodec_receive_frame r.response :: .sws_scale r.picture
          :: .SDL_UpdateTexture r.picture :: .SDL_RenderClear :: .SDL_RenderCopy
          :: .SDL_RenderPresent :: (receive_frames rs).1, (receive_frames rs).2)
      else if r.response = AVERROR_EAGAIN ∨ r.response = AVERROR_EOF then
        ([.avcodec_receive_frame r.response], none)
      else
        ([.avcodec_receive_frame r.response, .fprintf_stderr (.receive_failed r.response)],
          some r.response) := by
  simp only [receive_frames]
  by_cases h0 : 0 ≤ r.response
  · have h1 : ¬ (r.response = AVERROR_EAGAIN ∨ r.response = AVERROR_EOF) := by
      unfold AVERROR_EAGAIN AVERROR_EOF; omega
    have h2 : ¬ r.response < 0 := by omega
    simp [h0, h1, h2]
  · have h2 : r.response < 0 := by omega
    by_cases h1 : r.response = AVERROR_EAGAIN ∨ r.response = AVERROR_EOF
    · simp [h0, h1]
    · simp [h0, h1, h2]

theorem receive_frames_shown (rs : List Received) :
    shown (receive_frames rs).1
      = upload_present ((rs.takeWhile fun r => decide (0 ≤ r.response)).map fun r => r.picture) := by
  induction rs with
  | nil => rfl
  | cons r rs ih =>
    rw [receive_frames_cons]
    by_cases h0 : 0 ≤ r.response
    · simp only [h0, if_true, List.takeWhile_cons, decide_True, List.map_cons]
      simpa [shown, upload_present, List.filter_cons] using ih
    · by_cases h1 : r.response = AVERROR_EAGAIN ∨ r.response = AVERROR_EOF <;>
        simp [h0, h1, shown, upload_present, List.takeWhile_cons]

theorem receive_frames_paced (rs : List Received) :
    paced (receive_frames rs).1
      = List.replicate (rs.takeWhile fun r => decide (0 ≤ r.response)).length
          Event.SDL_RenderPresent := by
  induction rs with
  | nil => rfl
  | cons r rs ih =>
    rw [receive_frames_cons]
    by_cases h0 : 0 ≤ r.response
    · simp only [h0, if_true, List.takeWhile_cons, decide_True, List.length_cons,
        List.replicate_succ]
      simpa [paced, List.filter_cons] using ih
    · by_cases h1 : r.response = AVERROR_EAGAIN ∨ r.response = AVERROR_EOF <;>
        simp [h0, h1, paced, List.takeWhile_cons]

theorem receive_frames_fault (rs : List Received) :
    (receive_frames rs).2.isSome
      = match rs.dropWhile fun r => decide (0 ≤ r.response) with
        | [] => false
        | r :: _ => decide (r.response ≠ AVERROR_EAGAIN ∧ r.response ≠ AVERROR_EOF) := by
  induction rs with
  | nil => rfl
  | cons r rs ih =>
    rw [receive_frames_cons]
    by_cases h0 : 0 ≤ r.response
    · simp only [h0, if_true, List.dropWhile_cons, decide_True]
      exact ih
    · have hd : (r :: rs).dropWhile (fun r => decide (0 ≤ r.response)) = r :: rs := by
        simp [List.dropWhile_cons, h0]
      rw [if_neg h0, hd]
      show _ = decide (r.response ≠ AVERROR_EAGAIN ∧ r.response ≠ AVERROR_EOF)
      by_cases h1 : r.response = AVERROR_EAGAIN ∨ r.response = AVERROR_EOF
      · have h2 : ¬ (r.response ≠ AVERROR_EAGAIN ∧ r.response ≠ AVERROR_EOF) := by tauto
        rw [if_pos h1, decide_eq_false h2]
        rfl
      · have h2 : r.response ≠ AVERROR_EAGAIN ∧ r.response ≠ AVERROR_EOF := by tauto
        rw [if_neg h1, decide_eq_true h2]
        rfl

/-- The drain loop makes decoder, conversion and presentation calls only (and
writes one message when it meets a fault). -/
theorem receive_frames_filter (p : Event → Bool)
    (h1 : ∀ r, p (.avcodec_receive_frame r) = false) (h2 : ∀ m, p (.fprintf_stderr m) = false)
    (h3 : ∀ f, p (.sws_scale f) = false) (h4 : ∀ f, p (.SDL_UpdateTexture f) = false)
    (h5 : p .SDL_RenderClear = false) (h6 : p .SDL_RenderCopy = false)
    (h7 : p .SDL_RenderPresent = false) (rs : List Received) :
    (receive_frames rs).1.filter p = [] := by
  induction rs with
  | nil => simp [receive_frames, h1]
  | cons r rs ih =>
    rw [receive_frames_cons]
    split_ifs <;> simp [List.filter_cons, h1, h2, h3, h4, h5, h6, h7, ih]

theorem receive_frames_filterMap {β : Type} (f : Event → Option β)
    (h1 : ∀ r, f (.avcodec_receive_frame r) = none) (h2 : ∀ m, f (.fprintf_stderr m) = none)
    (h3 : ∀ x, f (.sws_scale x) = none) (h4 : ∀ x, f (.SDL_UpdateTexture x) = none)
    (h5 : f .SDL_RenderClear = none) (h6 : f .SDL_RenderCopy = none)
    (h7 : f .SDL_RenderPresent = none) (rs : List Received) :
    (receive_frames rs).1.filterMap f = [] := by
  induction rs with
  | nil => simp [receive_frames, h1]
  | cons r rs ih =>
    rw [receive_frames_cons]
    split_ifs <;> simp [List.filterMap_cons, h1, h2, h3, h4, h5, h6, h7, ih]

/-! ## The playback loop -/

theorem playback_loop_shown (vsi d : Int) (quit : Bool) (cs : List Cycle) :
    shown (playback_loop vsi d quit cs).1 =
      ((packets_read (playback_loop vsi d quit cs).1).filter (accepted vsi)).flatMap
        fun p => upload_present (emitted p) := by
  induction cs generalizing quit with
  | nil => cases quit <;> simp [playback_loop, shown, packets_read, poll_trace]
  | cons c cs ih =>
    cases quit
    swap
    · simp [playback_loop, shown, packets_read]
    have ih' := ih (poll_events false c.events)
    have hrecv := receive_frames_shown c.packet.receive
    have hpoll := poll_trace_filter (fun e => match e with
      | .SDL_UpdateTexture _ => true
      | .SDL_RenderPresent => true
      | _ => false) (fun _ => rfl) c.events
    have hpoll2 := poll_trace_filterMap (fun e => match e with
      | .av_read_frame _ (some p) => some p
      | _ => none) (fun _ => rfl) c.events
    have hrecv2 := receive_frames_filterMap (fun e => match e with
      | .av_read_frame _ (some p) => some p
      | _ => none) (fun _ => rfl) (fun _ => rfl) (fun _ => rfl) (fun _ => rfl) rfl rfl rfl
      c.packet.receive
    simp only [shown, packets_read] at ih' hrecv ⊢
    simp only [playback_loop]
    by_cases hr : c.av_read_frame < 0
    · simp [hr, List.filter_append, List.filterMap_append, hpoll, hpoll2]
    by_cases hv : c.packet.stream_index = vsi
    · by_cases hs : c.packet.send_response < 0
      · have hacc : accepted vsi c.packet = false := by simp [accepted, hv, hs]
        simp [hr, hv, hs, List.filter_append, List.filterMap_append, hpoll, hpoll2,
          List.filter_cons, hacc, ih']
      · have hacc : accepted vsi c.packet = true := by
          simp only [accepted, hv, true_and, decide_eq_true_eq]; omega
        cases hd : (receive_frames c.packet.receive).2 with
        | none =>
          simp [hr, hv, hs, hd, List.filter_append, List.filterMap_append, hpoll, hpoll2,
            List.filter_cons, hacc, ih', hrecv, hrecv2, emitted]
        | some f =>
          simp [hr, hv, hs, hd, List.filter_append, List.filterMap_append, hpoll, hpoll2,
            List.filter_cons, hacc, hrecv, hrecv2, emitted]
    · have hacc : accepted vsi c.packet = false := by simp [accepted, hv]
      simp [hr, hv, List.filter_append, List.filterMap_append, hpoll, hpoll2,
        List.filter_cons, hacc, ih']

theorem receive_frames_faulty (p : AVPacket) :
    (receive_frames p.receive).2.isSome = faulty p := by
  rw [receive_frames_fault]
  rfl

theorem playback_loop_paced (vsi d : Int) (quit : Bool) (cs : List Cycle) :
    paced (playback_loop vsi d quit cs).1 =
      ((packets_read (playback_loop vsi d quit cs).1).filter (accepted vsi)).flatMap
        (present_then_sleep (delay_ms d)) := by
  induction cs generalizing quit with
  | nil => cases quit <;> simp [playback_loop, paced, packets_read, poll_trace]
  | cons c cs ih =>
    cases quit
    swap
    · simp [playback_loop, paced, packets_read]
    have ih' := ih (poll_events false c.events)
    have hrecv := receive_frames_paced c.packet.receive
    have hfault := receive_frames_faulty c.packet
    have hpoll := poll_trace_filter (fun e => match e with
      | .SDL_RenderPresent => true
      | .SDL_Delay _ => true
      | _ => false) (fun _ => rfl) c.events
    have hpoll2 := poll_trace_filterMap (fun e => match e with
      | .av_read_frame _ (some p) => some p
      | _ => none) (fun _ => rfl) c.events
    have hrecv2 := receive_frames_filterMap (fun e => match e with
      | .av_read_frame _ (some p) => some p
      | _ => none) (fun _ => rfl) (fun _ => rfl) (fun _ => rfl) (fun _ => rfl) rfl rfl rfl
      c.packet.receive
    simp only [paced, packets_read] at ih' hrecv ⊢
    simp only [playback_loop]
    by_cases hr : c.av_read_frame < 0
    · simp [hr, List.filter_append, List.filterMap_append, hpoll, hpoll2]
    by_cases hv : c.packet.stream_index = vsi
    · by_cases hs : c.packet.send_response < 0
      · have hacc : accepted vsi c.packet = false := by simp [accepted, hv, hs]
        simp [hr, hv, hs, List.filter_append, List.filterMap_append, hpoll, hpoll2,
          List.filter_cons, hacc, ih']
      · have hacc : accepted vsi c.packet = true := by
          simp only [accepted, hv, true_and, decide_eq_true_eq]; omega
        cases hd : (receive_frames c.packet.receive).2 with
        | none =>
          have hf : faulty c.packet = false := by rw [← hfault, hd]; rfl
          simp [hr, hv, hs, hd, List.filter_append, List.filterMap_append, hpoll, hpoll2,
            List.filter_cons, hacc, ih', hrecv, hrecv2, emitted, present_then_sleep, hf]
        | some f =>
          have hf : faulty c.packet = true := by rw [← hfault, hd]; rfl
          simp [hr, hv, hs, hd, List.filter_append, List.filterMap_append, hpoll, hpoll2,
            List.filter_cons, hacc, hrecv, hrecv2, emitted, present_then_sleep, hf]
    · have hacc : accepted vsi c.packet = false := by simp [accepted, hv]
      simp [hr, hv, List.filter_append, List.filterMap_append, hpoll, hpoll2,
        List.filter_cons, hacc, ih']

theorem playback_loop_sleeps (vsi d : Int) (quit : Bool) (cs : List Cycle) :
    sleeps (playback_loop vsi d quit cs).1 =
      ((packets_read (playback_loop vsi d quit cs).1).filter
        fun p => accepted vsi p && !faulty p).map fun _ => Event.SDL_Delay (delay_ms d) := by
  induction cs generalizing quit with
  | nil => cases quit <;> simp [playback_loop, sleeps, packets_read, poll_trace]
  | cons c cs ih =>
    cases quit
    swap
    · simp [playback_loop, sleeps, packets_read]
    have ih' := ih (poll_events false c.events)
    have hfault := receive_frames_faulty c.packet
    have hpoll := poll_trace_filter (fun e => match e with
      | .SDL_Delay _ => true
      | _ => false) (fun _ => rfl) c.events
    have hrecv := receive_frames_filter (fun e => match e with
      | .SDL_Delay _ => true
      | _ => false) (fun _ => rfl) (fun _ => rfl) (fun _ => rfl) (fun _ => rfl) rfl rfl rfl
      c.packet.receive
    have hpoll2 := poll_trace_filterMap (fun e => match e with
      | .av_read_frame _ (some p) => some p
      | _ => none) (fun _ => rfl) c.events
    have hrecv2 := receive_frames_filterMap (fun e => match e with
      | .av_read_frame _ (some p) => some p
      | _ => none) (fun _ => rfl) (fun _ => rfl) (fun _ => rfl) (fun _ => rfl) rfl rfl rfl
      c.packet.receive
    simp only [sleeps, packets_read] at ih' ⊢
    simp only [playback_loop]
    by_cases hr : c.av_read_frame < 0
    · simp [hr, List.filter_append, List.filterMap_append, hpoll, hpoll2]
    by_cases hv : c.packet.stream_index = vsi
    · by_cases hs : c.packet.send_response < 0
      · have hacc : accepted vsi c.packet = false := by simp [accepted, hv, hs]
        simp [hr, hv, hs, List.filter_append, List.filterMap_append, hpoll, hpoll2,
          List.filter_cons, hacc, ih']
      · have hacc : accepted vsi c.packet = true := by
          simp only [accepted, hv, true_and, decide_eq_true_eq]; omega
        cases hd : (receive_frames c.packet.receive).2 with
        | none =>
          have hf : faulty c.packet = false := by rw [← hfault, hd]; rfl
          simp [hr, hv, hs, hd, List.filter_append, List.filterMap_append, hpoll, hpoll2,
            List.filter_cons, hacc, ih', hrecv, hrecv2, hf]
        | some f =>
          have hf : faulty c.packet = true := by rw [← hfault, hd]; rfl
          simp [hr, hv, hs, hd, List.filter_append, List.filterMap_append, hpoll, hpoll2,
            List.filter_cons, hacc, hrecv, hrecv2, hf]
    · have hacc : accepted vsi c.packet = false := by simp [accepted, hv]
      simp [hr, hv, List.filter_append, List.filterMap_append, hpoll, hpoll2,
        List.filter_cons, hacc, ih']

theorem receive_frames_in_loop (rs : List Received) :
    ∀ e ∈ (receive_frames rs).1, in_loop e = true := by
  induction rs with
  | nil => intro e he; simp [receive_frames] at he; subst he; rfl
  | cons r rs ih =>
    intro e he
    rw [receive_frames_cons] at he
    split_ifs at he
    · simp only [List.mem_cons] at he
      rcases he with rfl | rfl | rfl | rfl | rfl | rfl | he <;> first | rfl | exact ih e he
    · simp at he; subst he; rfl
    · simp at he; rcases he with rfl | rfl <;> rfl

theorem playback_loop_in_loop (vsi d : Int) (quit : Bool) (cs : List Cycle) :
    ∀ e ∈ (playback_loop vsi d quit cs).1, in_loop e = true := by
  induction cs generalizing quit with
  | nil =>
    cases quit <;> intro e he <;> simp [playback_loop, poll_trace] at he
    rcases he with rfl | rfl <;> rfl
  | cons c cs ih =>
    cases quit
    swap
    · intro e he; simp [playback_loop] at he
    have ih' := ih (poll_events false c.events)
    have hrecv := receive_frames_in_loop c.packet.receive
    have hpoll : ∀ e ∈ poll_trace c.events, in_loop e = true := by
      intro e he
      simp only [poll_trace, List.mem_append, List.mem_map, List.mem_singleton] at he
      rcases he with ⟨x, -, rfl⟩ | rfl <;> rfl
    intro e he
    simp only [playback_loop] at he
    by_cases hr : c.av_read_frame < 0
    · simp only [hr, if_true, List.mem_append, List.mem_singleton] at he
      rcases he with he | rfl
      · exact hpoll e he
      · rfl
    by_cases hv : c.packet.stream_index = vsi
    · by_cases hs : c.packet.send_response < 0
      · simp only [hr, hv, hs, if_true, if_false, List.mem_append, List.mem_singleton] at he
        rcases he with (((he | rfl) | rfl) | rfl) | he
        · exact hpoll e he
        · rfl
        · rfl
        · rfl
        · exact ih' e he
      · cases hd : (receive_frames c.packet.receive).2 with
        | none =>
          simp only [hr, hv, hs, hd, if_true, if_false, List.mem_append, List.mem_singleton,
            List.mem_cons, List.not_mem_nil, or_false] at he
          rcases he with (((((he | rfl) | rfl) | he) | (rfl | rfl)) | he)
          · exact hpoll e he
          · rfl
          · rfl
          · exact hrecv e he
          · rfl
          · rfl
          · exact ih' e he
        | some f =>
          simp only [hr, hv, hs, hd, if_true, if_false, List.mem_append, List.mem_singleton] at he
          rcases he with (((he | rfl) | rfl) | he)
          · exact hpoll e he
          · rfl
          · rfl
          · exact hrecv e he
    · simp only [hr, hv, if_false, List.mem_append, List.mem_singleton] at he
      rcases he with (((he | rfl) | rfl) | he)
      · exact hpoll e he
      · rfl
      · rfl
      · exact ih' e he

/-! ## Which turns of the loop are run -/

theorem playback_loop_quit (vsi d : Int) (cs : List Cycle) :
    playback_loop vsi d true cs = ([], .quit) := by
  cases cs <;> rfl

theorem playback_loop_reads_cons (vsi d : Int) (c : Cycle) (cs : List Cycle) :
    reads (playback_loop vsi d false (c :: cs)).1 =
      .av_read_frame c.av_read_frame (if c.av_read_frame < 0 then none else some c.packet)
        :: (if c.av_read_frame < 0 ∨ (accepted vsi c.packet && faulty c.packet) = true then []
            else reads (playback_loop vsi d (poll_events false c.events) cs).1) := by
  have hfault := receive_frames_faulty c.packet
  have hpoll := poll_trace_filter (fun e => match e with
    | .av_read_frame _ _ => true
    | _ => false) (fun _ => rfl) c.events
  have hrecv := receive_frames_filter (fun e => match e with
    | .av_read_frame _ _ => true
    | _ => false) (fun _ => rfl) (fun _ => rfl) (fun _ => rfl) (fun _ => rfl) rfl rfl rfl
    c.packet.receive
  simp only [reads]
  simp only [playback_loop]
  by_cases hr : c.av_read_frame < 0
  · simp [hr, List.filter_append, hpoll]
  by_cases hv : c.packet.stream_index = vsi
  · by_cases hs : c.packet.send_response < 0
    · have hacc : accepted vsi c.packet = false := by simp [accepted, hv, hs]
      simp [hr, hv, hs, List.filter_append, hpoll, List.filter_cons, hacc]
    · have hacc : accepted vsi c.packet = true := by
        simp only [accepted, hv, true_and, decide_eq_true_eq]; omega
      cases hd : (receive_frames c.packet.receive).2 with
      | none =>
        have hf : faulty c.packet = false := by rw [← hfault, hd]; rfl
        simp [hr, hv, hs, hd, List.filter_append, hpoll, List.filter_cons, hacc, hrecv, hf]
      | some f =>
        have hf : faulty c.packet = true := by rw [← hfault, hd]; rfl
        simp [hr, hv, hs, hd, List.filter_append, hpoll, List.filter_cons, hacc, hrecv, hf]
  · have hacc : accepted vsi c.packet = false := by simp [accepted, hv]
    simp [hr, hv, List.filter_append, hpoll, List.filter_cons, hacc]

theorem playback_loop_packets_cons (vsi d : Int) (c : Cycle) (cs : List Cycle) :
    packets_read (playback_loop vsi d false (c :: cs)).1 =
      if c.av_read_frame < 0 then []
      else c.packet :: (if (accepted vsi c.packet && faulty c.packet) = true then []
        else packets_read (playback_loop vsi d (poll_events false c.events) cs).1) := by
  have hfault := receive_frames_faulty c.packet
  have hpoll := poll_trace_filterMap (fun e => match e with
    | .av_read_frame _ (some p) => some p
    | _ => none) (fun _ => rfl) c.events
  have hrecv := receive_frames_filterMap (fun e => match e with
    | .av_read_frame _ (some p) => some p
    | _ => none) (fun _ => rfl) (fun _ => rfl) (fun _ => rfl) (fun _ => rfl) rfl rfl rfl
    c.packet.receive
  simp only [packets_read]
  simp only [playback_loop]
  by_cases hr : c.av_read_frame < 0
  · simp [hr, List.filterMap_append, hpoll]
  by_cases hv : c.packet.stream_index = vsi
  · by_cases hs : c.packet.send_response < 0
    · have hacc : accepted vsi c.packet = false := by simp [accepted, hv, hs]
      simp [hr, hv, hs, List.filterMap_append, hpoll, hacc]
    · have hacc : accepted vsi c.packet = true := by
        simp only [accepted, hv, true_and, decide_eq_true_eq]; omega
      cases hd : (receive_frames c.packet.receive).2 with
      | none =>
        have hf : faulty c.packet = false := by rw [← hfault, hd]; rfl
        simp [hr, hv, hs, hd, List.filterMap_append, hpoll, hacc, hrecv, hf]
      | some f =>
        have hf : faulty c.packet = true := by rw [← hfault, hd]; rfl
        simp [hr, hv, hs, hd, List.filterMap_append, hpoll, hacc, hrecv, hf]
  · have hacc : accepted vsi c.packet = false := by simp [accepted, hv]
    simp [hr, hv, List.filterMap_append, hpoll, hacc]

theorem playback_loop_stop_cons (vsi d : Int) (c : Cycle) (cs : List Cycle)
    (hr : 0 ≤ c.av_read_frame) (hf : (accepted vsi c.packet && faulty c.packet) = false) :
    (playback_loop vsi d false (c :: cs)).2
      = (playback_loop vsi d (poll_events false c.events) cs).2 := by
  have hfault := receive_frames_faulty c.packet
  have hr' : ¬ c.av_read_frame < 0 := by omega
  simp only [playback_loop]
  by_cases hv : c.packet.stream_index = vsi
  · by_cases hs : c.packet.send_response < 0
    · simp [hr', hv, hs]
    · have hacc : accepted vsi c.packet = true := by
        simp only [accepted, hv, true_and, decide_eq_true_eq]; omega
      cases hd : (receive_frames c.packet.receive).2 with
      | none => simp [hr', hv, hs, hd]
      | some f =>
        have hf2 : faulty c.packet = true := by rw [← hfault, hd]; rfl
        simp [hacc, hf2] at hf
  · simp [hr', hv]

/-- The loop calls `av_read_frame` at most once per listed turn, and once more
when the list is exhausted. -/
theorem playback_loop_reads_le (vsi d : Int) (quit : Bool) (cs : List Cycle) :
    (reads (playback_loop vsi d quit cs).1).length ≤ cs.length + 1 := by
  induction cs generalizing quit with
  | nil => cases quit <;> simp [playback_loop, reads, poll_trace]
  | cons c cs ih =>
    cases quit
    · rw [playback_loop_reads_cons]
      have := ih (poll_events false c.events)
      split_ifs <;> simp <;> omega
    · simp [playback_loop_quit, reads]

/-- Once the poll loop of turn `j` has seen a quit request, no turn after `j`
is started. -/
theorem playback_loop_reads_quit (vsi d : Int) (cs : List Cycle) (j : Nat) (c : Cycle)
    (hc : cs[j]? = some c) (hq : quit_requested c.events = true) :
    (reads (playback_loop vsi d false cs).1).length ≤ j + 1 := by
  induction cs generalizing j with
  | nil => simp at hc
  | cons a cs ih =>
    rw [playback_loop_reads_cons]
    cases j with
    | zero =>
      simp at hc
      subst hc
      rw [poll_events_eq, hq, playback_loop_quit]
      split_ifs <;> simp [reads]
    | succ j =>
      have hc2 : cs[j]? = some c := by simpa using hc
      have := ih j hc2
      cases hp : poll_events false a.events with
      | true => rw [playback_loop_quit]; split_ifs <;> simp [reads]
      | false => split_ifs <;> simp <;> omega

/-- When the poll loop of turn `j` is the first to see a quit request and
nothing else has ended the loop before, exactly the turns `0..j` are run, each
to its end, and the loop is left by its condition. -/
theorem playback_loop_quit_at (vsi d : Int) (cs : List Cycle) (j : Nat) (c : Cycle)
    (hc : cs[j]? = some c) (hq : quit_requested c.events = true)
    (hfirst : ∀ a ∈ cs.take j, quit_requested a.events = false)
    (hok : ∀ a ∈ cs.take (j + 1),
      0 ≤ a.av_read_frame ∧ (accepted vsi a.packet && faulty a.packet) = false) :
    (reads (playback_loop vsi d false cs).1).length = j + 1
      ∧ packets_read (playback_loop vsi d false cs).1 = (cs.take (j + 1)).map (fun a => a.packet)
      ∧ (playback_loop vsi d false cs).2 = .quit := by
  induction cs generalizing j with
  | nil => simp at hc
  | cons a cs ih =>
    have ha := hok a (by simp)
    have hr : ¬ a.av_read_frame < 0 := by omega
    have hnf : ¬ (accepted vsi a.packet && faulty a.packet) = true := by simp [ha.2]
    rw [playback_loop_reads_cons, playback_loop_packets_cons,
      playback_loop_stop_cons vsi d a cs ha.1 ha.2]
    simp only [hr, hnf, or_self, if_false]
    cases j with
    | zero =>
      simp at hc
      subst hc
      rw [poll_events_eq, hq, playback_loop_quit]
      simp [reads, packets_read]
    | succ j =>
      have hc2 : cs[j]? = some c := by simpa using hc
      have hq0 : quit_requested a.events = false := hfirst a (by simp)
      have hfirst2 : ∀ b ∈ cs.take j, quit_requested b.events = false := by
        intro b hb
        exact hfirst b (by simp [List.take_succ_cons, hb])
      have hok2 : ∀ b ∈ cs.take (j + 1),
          0 ≤ b.av_read_frame ∧ (accepted vsi b.packet && faulty b.packet) = false := by
        intro b hb
        exact hok b (by simp only [List.take_succ_cons, List.mem_cons]; exact Or.inr hb)
      obtain ⟨e1, e2, e3⟩ := ih j hc2 hfirst2 hok2
      rw [poll_events_eq, hq0]
      simp [e1, e2, e3, List.take_succ_cons]

/-! ## The event queue -/

theorem deliver_length (pending : List SDL_Event) (posts : List Posted) :
    (deliver pending posts).length = posts.length := by
  induction posts generalizing pending with
  | nil => rfl
  | cons p ps ih => simp [deliver, ih]

/-- An event posted before the poll loop of turn `k` has finished is handed
out in turn `k`. -/
theorem deliver_before (pending : List SDL_Event) (posts : List Posted) (k : Nat) (p : Posted)
    (hp : posts[k]? = some p) :
    ∃ c, (deliver pending posts)[k]? = some c
      ∧ ∀ e ∈ p.before_poll, e ∈ c.events := by
  induction posts generalizing pending k with
  | nil => simp at hp
  | cons a ps ih =>
    cases k with
    | zero =>
      simp at hp
      subst hp
      exact ⟨⟨pending ++ a.before_poll, a.av_read_frame, a.packet⟩, by simp [deliver],
        fun e he => List.mem_append_right _ he⟩
    | succ k =>
      have hp2 : ps[k]? = some p := by simpa using hp
      obtain ⟨c, h1, h2⟩ := ih a.after_poll k hp2
      exact ⟨c, by simpa [deliver] using h1, h2⟩

/-- An event posted in turn `k` after its poll loop is handed out in turn
`k + 1`, when there is one. -/
theorem deliver_after (pending : List SDL_Event) (posts : List Posted) (k : Nat) (p q : Posted)
    (hp : posts[k]? = some p) (hq : posts[k + 1]? = some q) :
    ∃ c, (deliver pending posts)[k + 1]? = some c
      ∧ ∀ e ∈ p.after_poll, e ∈ c.events := by
  induction posts generalizing pending k with
  | nil => simp at hp
  | cons a ps ih =>
    cases k with
    | zero =>
      simp at hp
      subst hp
      cases ps with
      | nil => simp at hq
      | cons b ps =>
        exact ⟨⟨a.after_poll ++ b.before_poll, b.av_read_frame, b.packet⟩, by simp [deliver],
          fun e he => List.mem_append_left _ he⟩
    | succ k =>
      have hp2 : ps[k]? = some p := by simpa using hp
      have hq2 : ps[k + 1]? = some q := by simpa using hq
      obtain ⟨c, h1, h2⟩ := ih a.after_poll k hp2 hq2
      exact ⟨c, by simpa [deliver] using h1, h2⟩

theorem quit_requested_of_mem (small large : List SDL_Event)
    (h : ∀ e ∈ small, e ∈ large) (hq : quit_requested small = true) :
    quit_requested large = true := by
  simp only [quit_requested, List.any_eq_true] at hq ⊢
  obtain ⟨e, he, hp⟩ := hq
  exact ⟨e, h e he, hp⟩

/-! ## `main` -/

theorem main_ok (w : World) (s : Setup) (hs : startup w = .ok s) :
    main w =
      match (playback_loop s.video_stream_index s.delay false w.cycles).2 with
      | .decode_fault response =>
        ⟨s.trace ++ (playback_loop s.video_stream_index s.delay false w.cycles).1, response⟩
      | _ =>
        ⟨s.trace ++ (playback_loop s.video_stream_index s.delay false w.cycles).1 ++ shutdown,
          0⟩ := by
  simp only [main, hs]

theorem main_error (w : World) (r : Run) (hs : startup w = .error r) : main w = r := by
  simp only [main, hs]

theorem setup_trace_before_loop (w : World) (s : Setup) (hs : startup w = .ok s) :
    ∀ e ∈ s.trace, before_loop e = true := by
  have h := startup_trace_before_loop w
  simpa [startup_trace, hs] using h

/-- An observation that ignores start-up and shutdown events sees the loop only. -/
theorem main_filter (p : Event → Bool) (hp : ∀ e, before_loop e = true → p e = false)
    (hsd : ∀ e ∈ shutdown, p e = false) (w : World) (s : Setup) (hs : startup w = .ok s) :
    (main w).trace.filter p
      = (playback_loop s.video_stream_index s.delay false w.cycles).1.filter p := by
  have h1 : s.trace.filter p = [] := by
    rw [List.filter_eq_nil_iff]
    intro e he
    simp [hp e (setup_trace_before_loop w s hs e he)]
  have h2 : shutdown.filter p = [] := by
    rw [List.filter_eq_nil_iff]
    intro e he
    simp [hsd e he]
  rw [main_ok w s hs]
  split <;> simp [List.filter_append, h1, h2]

theorem main_filterMap {β : Type} (f : Event → Option β)
    (hf : ∀ e, before_loop e = true → f e = none)
    (hsd : ∀ e ∈ shutdown, f e = none) (w : World) (s : Setup) (hs : startup w = .ok s) :
    (main w).trace.filterMap f
      = (playback_loop s.video_stream_index s.delay false w.cycles).1.filterMap f := by
  have h1 : s.trace.filterMap f = [] := by
    rw [List.filterMap_eq_nil_iff]
    intro e he
    exact hf e (setup_trace_before_loop w s hs e he)
  have h2 : shutdown.filterMap f = [] := by
    rw [List.filterMap_eq_nil_iff]
    intro e he
    exact hsd e he
  rw [main_ok w s hs]
  split <;> simp [List.filterMap_append, h1, h2]

theorem main_shown (w : World) (s : Setup) (hs : startup w = .ok s) :
    shown (main w).trace
      = shown (playback_loop s.video_stream_index s.delay false w.cycles).1 :=
  main_filter _ (by intro e he; cases e <;> first | rfl | cases he) (by decide) w s hs

theorem main_paced (w : World) (s : Setup) (hs : startup w = .ok s) :
    paced (main w).trace
      = paced (playback_loop s.video_stream_index s.delay false w.cycles).1 :=
  main_filter _ (by intro e he; cases e <;> first | rfl | cases he) (by decide) w s hs

theorem main_sleeps (w : World) (s : Setup) (hs : startup w = .ok s) :
    sleeps (main w).trace
      = sleeps (playback_loop s.video_stream_index s.delay false w.cycles).1 :=
  main_filter _ (by intro e he; cases e <;> first | rfl | cases he) (by decide) w s hs

theorem main_reads (w : World) (s : Setup) (hs : startup w = .ok s) :
    reads (main w).trace
      = reads (playback_loop s.video_stream_index s.delay false w.cycles).1 :=
  main_filter _ (by intro e he; cases e <;> first | rfl | cases he) (by decide) w s hs

theorem main_packets_read (w : World) (s : Setup) (hs : startup w = .ok s) :
    packets_read (main w).trace
      = packets_read (playback_loop s.video_stream_index s.delay false w.cycles).1 :=
  main_filterMap _ (by intro e he; cases e <;> first | rfl | cases he) (by decide) w s hs

/-- The value `main` returns once the loop has been reached: 0 when the loop is
left by its condition or by `break`, the decoder's response when line 176
returns. -/
theorem main_code (w : World) (s : Setup) (hs : startup w = .ok s) :
    (main w).code =
      match (playback_loop s.video_stream_index s.delay false w.cycles).2 with
      | .decode_fault response => response
      | _ => 0 := by
  rw [main_ok w s hs]
  split <;> rfl

/-! ## Selection and the first qualifying stream -/

theorem select_streams_find_some (decoders : List Nat) (l : List AVStream) (k : Nat)
    (st : AVStream) (h : l.find? (fun s => decide (qualifies decoders s)) = some st) :
    ∃ i, l[i]? = some st ∧ (select_streams decoders l k (-1)).2 = ((k + i : Nat) : Int) := by
  induction l generalizing k with
  | nil => simp at h
  | cons a l ih =>
    by_cases ha : qualifies decoders a
    · have e : a = st := by simpa [List.find?_cons, ha] using h
      subst e
      refine ⟨0, by simp, ?_⟩
      exact select_streams_first decoders (a :: l) k 0 a (by simp) ha (by intro j t hj; omega)
    · have h2 : l.find? (fun s => decide (qualifies decoders s)) = some st := by
        simpa [List.find?_cons, ha] using h
      obtain ⟨i, hi, e⟩ := ih (k + 1) h2
      refine ⟨i + 1, by simpa using hi, ?_⟩
      rw [select_streams_cons_index, if_neg (fun c => ha c.1), e]
      push_cast
      ring

theorem video_stream_of_find (w : World) (st : AVStream)
    (h : w.streams.find? (fun s => decide (qualifies w.decoders s)) = some st) :
    video_stream_index w ≠ -1 ∧ video_stream w.streams (video_stream_index w) = st := by
  obtain ⟨i, hi, e⟩ := select_streams_find_some w.decoders w.streams 0 st h
  unfold video_stream_index video_stream
  rw [e]
  refine ⟨by omega, ?_⟩
  simp [hi]

theorem video_stream_index_of_find_none (w : World)
    (h : w.streams.find? (fun s => decide (qualifies w.decoders s)) = none) :
    video_stream_index w = -1 := by
  apply select_streams_none
  intro s hs
  have := List.find?_eq_none.mp h s hs
  simpa using this

/-! ## The claims -/

/-- C1. Stream selection: the index left in `video_stream_index` is the smallest
index of a stream whose media type is video and whose codec has a decoder; no
later stream is selected when an earlier one qualifies.  The same index is the
one the playback loop works with. -/
theorem C1_first_qualifying_stream_is_selected (w : World) (i : Nat) (st : AVStream)
    (hi : w.streams[i]? = some st) (hq : qualifies w.decoders st)
    (hmin : ∀ j t, j < i → w.streams[j]? = some t → ¬ qualifies w.decoders t) :
    video_stream_index w = (i : Int)
      ∧ ∀ s, startup w = .ok s → s.video_stream_index = (i : Int) := by
  have e : video_stream_index w = (i : Int) := by
    have := select_streams_first w.decoders w.streams 0 i st hi hq hmin
    simpa [video_stream_index] using this
  refine ⟨e, ?_⟩
  intro s hs
  rw [(startup_ok w s hs).2.2.2.2.2.1, e]

/-- C1 on the container `[audio, video-A, video-B]` with both video codecs
decodable: the selected index is 1. -/
theorem C1_witness :
    demo_world.streams[1]? = some video_A ∧ qualifies demo_world.decoders video_A
      ∧ video_stream_index demo_world = 1 :=
  ⟨rfl, by decide,
    (C1_first_qualifying_stream_is_selected demo_world 1 video_A rfl (by decide)
      (by
        intro j t hj ht
        have hj0 : j = 0 := by omega
        subst hj0
        have e : t = audio_stream := by simpa [demo_world] using ht.symm
        subst e
        decide)).1⟩

/-- C2. When the container is opened and its streams are discovered but no
stream is both video and decodable, `main` ends in `exit(EXIT_FAILURE)` right
after reporting that no video stream was found, and the run feeds or drains no
decoder, converts, uploads and presents nothing. -/
theorem C2_no_decodable_video_stream_is_fatal (w : World) (h1 : 2 ≤ w.argc)
    (h2 : w.avformat_alloc_context = true) (h3 : w.avformat_open_input = 0)
    (h4 : 0 ≤ w.avformat_find_stream_info)
    (hnone : ∀ st ∈ w.streams, ¬ qualifies w.decoders st) :
    (main w).code = 1 ∧ exitStatus (main w) = 1
      ∧ (main w).trace.getLast? = some (.fprintf_stderr .no_video_stream)
      ∧ (∀ e ∈ (main w).trace, is_playback_call e = false)
      ∧ packets_read (main w).trace = [] := by
  have h5 : video_stream_index w = -1 := select_streams_none _ _ _ _ hnone
  have hs := startup_not_selected w h1 h2 h3 h4 h5
  have hm := main_error w _ hs
  have hk := startup_trace_before_loop w
  simp only [startup_trace, hs] at hk
  rw [hm]
  refine ⟨rfl, rfl, List.getLast?_concat _, ?_, ?_⟩
  · intro e he
    have := hk e he
    cases e <;> first | rfl | cases this
  · simp only [packets_read]
    rw [List.filterMap_eq_nil_iff]
    intro e he
    have := hk e he
    cases e <;> first | rfl | cases this

/-- C2 on the container of `demo_world` when only the audio codec can be
decoded. -/
theorem C2_witness :
    (∀ st ∈ no_decoder_world.streams, ¬ qualifies no_decoder_world.decoders st)
      ∧ (main no_decoder_world).code = 1
      ∧ (main no_decoder_world).trace.getLast? = some (.fprintf_stderr .no_video_stream) :=
  have h := C2_no_decodable_video_stream_is_fatal no_decoder_world (by decide) rfl rfl
    (by decide) (by decide)
  ⟨by decide, h.1, h.2.2.1⟩

theorem playback_loop_stdout (vsi d : Int) (quit : Bool) (cs : List Cycle) :
    stdout (playback_loop vsi d quit cs).1 = [] := by
  simp only [stdout]
  rw [List.filter_eq_nil_iff]
  intro e he
  have := playback_loop_in_loop vsi d quit cs e he
  cases e <;> first | (simp; done) | cases this

theorem stdout_append (a b : List Event) : stdout (a ++ b) = stdout a ++ stdout b := by
  simp [stdout, List.filter_append]

theorem stdout_selection (w : World) :
    stdout ([.avformat_alloc_context, .avformat_open_input, .avformat_find_stream_info]
        ++ (select_streams w.decoders w.streams 0 (-1)).1)
      = (w.streams.filter fun st => decide (qualifies w.decoders st)).map resolution_line := by
  rw [stdout_append, select_streams_stdout]
  rfl

/-- C9 as the code has it.  Once the streams are discovered, standard output
holds one resolution line for each stream that is video and whose codec has a
decoder, in container order (a video stream without a decoder is skipped before
its resolution is printed), followed by one line with the frame rate of the
first such stream when there is one, and nothing else. -/
theorem C9_stdout_lists_decodable_video_streams (w : World) (h1 : 2 ≤ w.argc)
    (h2 : w.avformat_alloc_context = true) (h3 : w.avformat_open_input = 0)
    (h4 : 0 ≤ w.avformat_find_stream_info) :
    stdout (main w).trace
      = (w.streams.filter fun st => decide (qualifies w.decoders st)).map resolution_line
        ++ match w.streams.find? (fun st => decide (qualifies w.decoders st)) with
          | some st => [.printf_frame_rate (framerate w st)]
          | none => [] := by
  cases hfind : w.streams.find? (fun st => decide (qualifies w.decoders st)) with
  | none =>
    have h5 := video_stream_index_of_find_none w hfind
    rw [main_error w _ (startup_not_selected w h1 h2 h3 h4 h5), stdout_append,
      stdout_selection]
    rfl
  | some st =>
    obtain ⟨h5, hst⟩ := video_stream_of_find w st hfind
    have hs := startup_selected w h1 h2 h3 h4 h5
    rw [hst] at hs
    have hpre : stdout ([.avformat_alloc_context, .avformat_open_input,
          .avformat_find_stream_info]
        ++ (select_streams w.decoders w.streams 0 (-1)).1
        ++ (if needs_guess st then [.av_guess_frame_rate] else [])
        ++ [.printf_frame_rate (framerate w st)])
        = (w.streams.filter fun st => decide (qualifies w.decoders st)).map resolution_line
          ++ [.printf_frame_rate (framerate w st)] := by
      rw [stdout_append, stdout_append, stdout_selection]
      split_ifs <;> simp [stdout]
    have hcalls : stdout acquire_calls = [] := by decide
    cases hacq : acquire w ([.avformat_alloc_context, .avformat_open_input,
          .avformat_find_stream_info]
        ++ (select_streams w.decoders w.streams 0 (-1)).1
        ++ (if needs_guess st then [.av_guess_frame_rate] else [])
        ++ [.printf_frame_rate (framerate w st)]) (video_stream_index w)
        (delay (framerate w st)) with
    | error r =>
      rw [hacq] at hs
      obtain ⟨-, ex, hex, hexk⟩ := acquire_error w _ _ _ r hacq
      have hexs : stdout ex = [] := by
        simp only [stdout]
        rw [List.filter_eq_nil_iff]
        intro e he
        rcases hexk e he with ⟨m, rfl⟩ | hm
        · simp
        · have := acquire_calls_before_loop e hm
          have hc : e ∈ stdout acquire_calls → False := by rw [hcalls]; simp
          intro hp
          exact hc (by simp only [stdout]; exact List.mem_filter.mpr ⟨hm, hp⟩)
      rw [main_error w r hs, hex, stdout_append, hpre, hexs]
      simp
    | ok s =>
      rw [hacq] at hs
      have e := acquire_ok w _ _ _ s hacq
      have hsd : stdout shutdown = [] := by decide
      rw [main_ok w s hs]
      split <;>
        simp only [stdout_append, playback_loop_stdout, hsd, List.append_nil] <;>
        rw [e] <;> simp only [stdout_append, hpre, hcalls, List.append_nil]

/-- C9 on `demo_world`: two resolution lines (both video streams are decodable)
and the frame rate of the first. -/
theorem C9_witness :
    2 ≤ demo_world.argc ∧ demo_world.avformat_open_input = 0
      ∧ stdout (main demo_world).trace
        = [.printf_resolution 640 480, .printf_resolution 1280 720,
            .printf_frame_rate ⟨25, 1⟩] :=
  ⟨by decide, rfl,
    (C9_stdout_lists_decodable_video_streams demo_world (by decide) rfl rfl (by decide)).trans
      (by decide)⟩

/-- C9 as stated fails: a video stream whose codec has no decoder gets no
resolution line.  The container holds two video streams, the first (640 x 360)
without a decoder; the claim asks for two resolution lines and the frame rate,
standard output holds the second stream's line and the frame rate only. -/
theorem C9_counterexample :
    stdout (main undecodable_first_world).trace
        = [.printf_resolution 640 480, .printf_frame_rate ⟨25, 1⟩]
      ∧ stdout (main undecodable_first_world).trace
        ≠ (undecodable_first_world.streams.filter
              fun st => decide (st.codecpar.codec_type = .VIDEO)).map resolution_line
            ++ [.printf_frame_rate ⟨25, 1⟩] := by
  decide

theorem playback_loop_one_frame_cycles (vsi d : Int) (pictures : List Nat) :
    packets_read (playback_loop vsi d false (one_frame_cycles vsi pictures)).1
        = pictures.map (fun i => (⟨vsi, 0, [⟨0, i⟩]⟩ : AVPacket))
      ∧ (playback_loop vsi d false (one_frame_cycles vsi pictures)).2
        = .read_failed AVERROR_EOF := by
  induction pictures with
  | nil => exact ⟨by simp [one_frame_cycles, playback_loop, packets_read, poll_trace], rfl⟩
  | cons i pictures ih =>
    have hf : (accepted vsi ⟨vsi, 0, [⟨0, i⟩]⟩ && faulty ⟨vsi, 0, [⟨0, i⟩]⟩) = false := by
      simp [faulty]
    simp only [one_frame_cycles, List.map_cons] at ih ⊢
    rw [playback_loop_packets_cons, playback_loop_stop_cons vsi d _ _ (le_refl 0) hf]
    simp only [hf, poll_events]
    exact ⟨by simpa using ih.1, ih.2⟩

theorem upload_present_one_frame (vsi : Int) (pictures : List Nat) :
    ((pictures.map (fun i => (⟨vsi, 0, [⟨0, i⟩]⟩ : AVPacket))).filter (accepted vsi)).flatMap
        (fun p => upload_present (emitted p))
      = upload_present pictures := by
  induction pictures with
  | nil => rfl
  | cons i pictures ih =>
    have ha : accepted vsi ⟨vsi, 0, [⟨0, i⟩]⟩ = true := by simp [accepted]
    simp only [List.map_cons, List.filter_cons, ha, if_true, List.flatMap_cons, ih]
    simp [upload_present, emitted]

/-- When no poll loop sees a quit request, every read succeeds and no drain
meets a fault, the loop reads every packet and is left at the end of the
stream. -/
theorem playback_loop_complete (vsi d : Int) (cs : List Cycle)
    (h : ∀ c ∈ cs, quit_requested c.events = false ∧ 0 ≤ c.av_read_frame
      ∧ faulty c.packet = false) :
    packets_read (playback_loop vsi d false cs).1 = cs.map (fun c => c.packet)
      ∧ (playback_loop vsi d false cs).2 = .read_failed AVERROR_EOF := by
  induction cs with
  | nil => exact ⟨by simp [playback_loop, packets_read, poll_trace], rfl⟩
  | cons c cs ih =>
    obtain ⟨hq, hr, hf⟩ := h c (by simp)
    have hf2 : (accepted vsi c.packet && faulty c.packet) = false := by simp [hf]
    have hr2 : ¬ c.av_read_frame < 0 := by omega
    have ih2 := ih (fun a ha => h a (List.mem_cons_of_mem c ha))
    rw [playback_loop_packets_cons, playback_loop_stop_cons vsi d c cs hr hf2,
      poll_events_eq, hq]
    simp only [hr2, hf2, if_false, List.map_cons]
    exact ⟨by simpa using ih2.1, ih2.2⟩

/-- C4. Presentation order and count: the uploads and presentations of a run
are, in packet read order, those of the frames the decoder emits for each packet
of the selected stream that it has accepted, one upload followed by one
presentation per frame.  When the user does not quit, every read succeeds and
the decoder reports no fault, these are all the accepted packets of the input,
in input order, and `main` returns 0.  So packets that yield exactly one frame
each are presented in packet order, picture by picture. -/
theorem C4_frames_presented_in_packet_order (w : World) (s : Setup)
    (hs : startup w = .ok s) :
    shown (main w).trace
        = ((packets_read (main w).trace).filter (accepted s.video_stream_index)).flatMap
            (fun p => upload_present (emitted p))
      ∧ ((∀ c ∈ w.cycles, quit_requested c.events = false ∧ 0 ≤ c.av_read_frame
            ∧ faulty c.packet = false) →
          shown (main w).trace
            = (((w.cycles.map (fun c => c.packet))).filter
                (accepted s.video_stream_index)).flatMap (fun p => upload_present (emitted p))
          ∧ (main w).code = 0)
      ∧ ∀ pictures, w.cycles = one_frame_cycles s.video_stream_index pictures →
          shown (main w).trace = upload_present pictures ∧ (main w).code = 0 := by
  refine ⟨?_, ?_, ?_⟩
  · rw [main_shown w s hs, main_packets_read w s hs]
    exact playback_loop_shown _ _ _ _
  · intro hall
    obtain ⟨e1, e2⟩ := playback_loop_complete s.video_stream_index s.delay w.cycles hall
    refine ⟨?_, ?_⟩
    · rw [main_shown w s hs, playback_loop_shown, e1]
    · rw [main_code w s hs, e2]
  · intro pictures hc
    obtain ⟨e1, e2⟩ := playback_loop_one_frame_cycles s.video_stream_index s.delay pictures
    refine ⟨?_, ?_⟩
    · rw [main_shown w s hs, playback_loop_shown, hc, e1]
      exact upload_present_one_frame _ _
    · rw [main_code w s hs, hc, e2]

/-- C4 on the 2-packet, 2-frame container of `demo_world`: exactly two uploads,
each followed by its presentation, pictures 0 and 1 in this order, and the run
returns 0. -/
theorem C4_witness :
    startup demo_world = .ok demo_setup
      ∧ shown (main demo_world).trace
        = [.SDL_UpdateTexture 0, .SDL_RenderPresent, .SDL_UpdateTexture 1, .SDL_RenderPresent]
      ∧ (main demo_world).code = 0 :=
  ⟨rfl, (C4_frames_presented_in_packet_order demo_world demo_setup rfl).2.2 [0, 1] rfl⟩

/-- Nothing is read, decoded or presented in a run whose start-up ends in
`exit`, and the value passed to `exit` is `EXIT_FAILURE`. -/
theorem fatal_startup_plays_nothing (w : World) (r : Run) (h : startup w = .error r) :
    main w = r ∧ r.code = EXIT_FAILURE ∧ reads r.trace = []
      ∧ ∀ e ∈ r.trace, is_playback_call e = false := by
  have hk := startup_trace_before_loop w
  simp only [startup_trace, h] at hk
  refine ⟨main_error w r h, startup_error_code w r h, ?_, ?_⟩
  · simp only [reads]
    rw [List.filter_eq_nil_iff]
    intro e he
    have := hk e he
    cases e <;> first | (simp; done) | cases this
  · intro e he
    have := hk e he
    cases e <;> first | rfl | cases this

set_option maxRecDepth 8192 in
/-- On a stream whose frame rate is unknown (guess 0/1) or too low for the
quotient to fit an `int`, the conversion of line 69 is not defined by C; the
value modelled is `INT_MIN`, and `SDL_Delay` is handed 2147483648. -/
theorem delay_where_undefined :
    delay_defined ⟨0, 1⟩ = false ∧ delay ⟨0, 1⟩ = INT_MIN
      ∧ delay_defined ⟨1, 3000000⟩ = false ∧ delay ⟨1, 3000000⟩ = INT_MIN
      ∧ delay_ms INT_MIN = 2147483648 :=
  ⟨rfl, rfl, rfl, rfl, rfl⟩

/-- C5 as the code has it, for a selected stream whose frame rate makes the
conversion `(int)(1000 / fps)` defined.  Each packet of the selected stream
that the decoder accepts is followed by exactly one sleep of `delay`
milliseconds, `delay` being `(int)(1000 / fps)`, the quotient cut toward zero
(40 for 25 frames per second), and the sleep comes after the presentations of
all frames of that packet and before those of the next one, unless the drain
meets a decode fault.  A packet of the selected stream that
`avcodec_send_packet` rejects, like a packet of another stream, causes no
sleep: the sleeps are as many as the packets accepted and drained without
fault. -/
theorem C5_one_sleep_per_accepted_packet (w : World) (s : Setup) (hs : startup w = .ok s)
    (hdef : delay_defined (framerate w (video_stream w.streams (video_stream_index w)))
      = true) :
    paced (main w).trace
        = ((packets_read (main w).trace).filter (accepted s.video_stream_index)).flatMap
            (present_then_sleep (delay_ms s.delay))
      ∧ sleeps (main w).trace
        = ((packets_read (main w).trace).filter
            fun p => accepted s.video_stream_index p && !faulty p).map
              (fun _ => Event.SDL_Delay (delay_ms s.delay))
      ∧ s.delay
        = truncated_quotient (framerate w (video_stream w.streams (video_stream_index w)))
      ∧ truncated_quotient ⟨25, 1⟩ = 40 := by
  refine ⟨?_, ?_, ?_, by decide⟩
  · rw [main_paced w s hs, main_packets_read w s hs]
    exact playback_loop_paced _ _ _ _
  · rw [main_sleeps w s hs, main_packets_read w s hs]
    exact playback_loop_sleeps _ _ _ _
  · rw [(startup_ok w s hs).2.2.2.2.2.2.1]
    simp only [delay, hdef, if_true]

/-- C5 on the run in which the first of two video packets is rejected: the
frame rate is 25/1, for which the conversion is defined, and there is one sleep
of 40 ms, after the only presentation. -/
theorem C5_witness :
    startup rejecting_world = .ok demo_setup
      ∧ delay_defined
          (framerate rejecting_world
            (video_stream rejecting_world.streams (video_stream_index rejecting_world)))
        = true
      ∧ paced (main rejecting_world).trace = [.SDL_RenderPresent, .SDL_Delay 40]
      ∧ sleeps (main rejecting_world).trace = [.SDL_Delay 40] :=
  have h := C5_one_sleep_per_accepted_packet rejecting_world demo_setup rfl (by decide)
  ⟨rfl, by decide, h.1.trans (by decide), h.2.1.trans (by decide)⟩

/-- C5 as stated fails: the run reads two packets of the selected stream, the
first of which `avcodec_send_packet` rejects, and sleeps once, not twice. -/
theorem C5_counterexample :
    ((packets_read (main rejecting_world).trace).filter (of_video_stream 1)).length = 2
      ∧ (sleeps (main rejecting_world).trace).length = 1
      ∧ (sleeps (main rejecting_world).trace).length
        ≠ ((packets_read (main rejecting_world).trace).filter (of_video_stream 1)).length := by
  decide

/-- C6 as the code has it.  The quit flag is set by the poll loop at the start
of a turn and tested only before the next turn.  So a quit event posted before
the poll loop of turn `k` has emptied the queue stops the loop before turn
`k + 1`; a quit event posted later in turn `k` (during the read, the drain, the
presentation or the sleep) is handed out by the poll loop of turn `k + 1`, and
that turn is still run before the loop stops.  In both cases the turn whose
poll loop sees the event is run to its end, never cut in the middle of a drain:
when it is the first such turn `j` and neither a failed read nor a decode fault
has ended the loop up to it, exactly the packets of turns `0..j` are read, all
their frames are presented, and `main` returns 0. -/
theorem C6_quit_takes_effect_after_the_polling_turn (w : World) (s : Setup)
    (posts : List Posted) (k : Nat) (p : Posted) (hs : startup w = .ok s)
    (hw : w.cycles = deliver [] posts) (hk : posts[k]? = some p) :
    (quit_requested p.before_poll = true → (reads (main w).trace).length ≤ k + 1)
      ∧ (quit_requested p.after_poll = true → (reads (main w).trace).length ≤ k + 2)
      ∧ ∀ j c, w.cycles[j]? = some c → quit_requested c.events = true →
          (∀ a ∈ w.cycles.take j, quit_requested a.events = false) →
          (∀ a ∈ w.cycles.take (j + 1), 0 ≤ a.av_read_frame
            ∧ (accepted s.video_stream_index a.packet && faulty a.packet) = false) →
          (reads (main w).trace).length = j + 1
            ∧ packets_read (main w).trace = (w.cycles.take (j + 1)).map (fun a => a.packet)
            ∧ shown (main w).trace
              = (((w.cycles.take (j + 1)).map (fun a => a.packet)).filter
                  (accepted s.video_stream_index)).flatMap (fun q => upload_present (emitted q))
            ∧ (main w).code = 0 := by
  refine ⟨?_, ?_, ?_⟩
  · intro hq
    obtain ⟨c, hc, hsub⟩ := deliver_before [] posts k p hk
    rw [main_reads w s hs, hw]
    exact playback_loop_reads_quit _ _ _ k c hc (quit_requested_of_mem _ _ hsub hq)
  · intro hq
    rw [main_reads w s hs, hw]
    cases hnext : posts[k + 1]? with
    | some q =>
      obtain ⟨c, hc, hsub⟩ := deliver_after [] posts k p q hk hnext
      exact playback_loop_reads_quit _ _ _ (k + 1) c hc (quit_requested_of_mem _ _ hsub hq)
    | none =>
      have hlen : posts.length ≤ k + 1 := by simpa using hnext
      have := playback_loop_reads_le s.video_stream_index s.delay false (deliver [] posts)
      rw [deliver_length] at this
      omega
  · intro j c hc hq hfirst hok
    obtain ⟨e1, e2, e3⟩ :=
      playback_loop_quit_at s.video_stream_index s.delay w.cycles j c hc hq hfirst hok
    refine ⟨?_, ?_, ?_, ?_⟩
    · rw [main_reads w s hs, e1]
    · rw [main_packets_read w s hs, e2]
    · rw [main_shown w s hs, playback_loop_shown, e2]
    · rw [main_code w s hs, e3]

/-- C6 on `late_quit_world`: the window is closed during turn 0 after its poll
loop; the poll loop of turn 1 sees the event, turn 1 is run to its end and turn
2 is not started. -/
theorem C6_witness :
    startup late_quit_world = .ok demo_setup
      ∧ late_quit_world.cycles = deliver [] late_quit_posts
      ∧ (reads (main late_quit_world).trace).length ≤ 0 + 2
      ∧ (reads (main late_quit_world).trace).length = 1 + 1
      ∧ shown (main late_quit_world).trace = upload_present [0, 1] :=
  have h := C6_quit_takes_effect_after_the_polling_turn late_quit_world demo_setup
    late_quit_posts 0 ⟨[], [⟨SDL_QUIT, 0⟩], 0, ⟨1, 0, [⟨0, 0⟩]⟩⟩ rfl rfl rfl
  have h3 := h.2.2 1 ⟨[⟨SDL_QUIT, 0⟩], 0, ⟨1, 0, [⟨0, 1⟩]⟩⟩ rfl (by decide) (by decide)
    (by decide)
  ⟨rfl, rfl, h.2.1 (by decide), h3.1, h3.2.2.1.trans (by decide)⟩

/-- C6 as stated fails: in `late_quit_world` the quit event is posted during
turn 0, yet turn 1 is started: a second packet is read and its frame is
presented. -/
theorem C6_counterexample :
    late_quit_posts[0]? = some ⟨[], [⟨SDL_QUIT, 0⟩], 0, ⟨1, 0, [⟨0, 0⟩]⟩⟩
      ∧ quit_requested [⟨SDL_QUIT, 0⟩] = true
      ∧ ¬ (reads (main late_quit_world).trace).length ≤ 0 + 1
      ∧ packets_read (main late_quit_world).trace
        = [⟨1, 0, [⟨0, 0⟩]⟩, ⟨1, 0, [⟨0, 1⟩]⟩]
      ∧ shown (main late_quit_world).trace
        = [.SDL_UpdateTexture 0, .SDL_RenderPresent, .SDL_UpdateTexture 1, .SDL_RenderPresent] := by
  decide

/-! ## Release of resources -/

theorem releases_append (a b : List Event) : releases (a ++ b) = releases a ++ releases b := by
  simp [releases, List.filterMap_append]

theorem acquisitions_append (a b : List Event) :
    acquisitions (a ++ b) = acquisitions a ++ acquisitions b := by
  simp [acquisitions, List.filterMap_append]

theorem releases_before_loop (t : List Event) (h : ∀ e ∈ t, before_loop e = true) :
    releases t = [] := by
  simp only [releases]
  rw [List.filterMap_eq_nil_iff]
  intro e he
  have := h e he
  cases e <;> first | rfl | cases this

theorem releases_in_loop (t : List Event) (h : ∀ e ∈ t, in_loop e = true) :
    releases t = [] := by
  simp only [releases]
  rw [List.filterMap_eq_nil_iff]
  intro e he
  have := h e he
  cases e <;> first | rfl | cases this

theorem acquisitions_in_loop (t : List Event) (h : ∀ e ∈ t, in_loop e = true) :
    acquisitions t = [] := by
  simp only [acquisitions]
  rw [List.filterMap_eq_nil_iff]
  intro e he
  have := h e he
  cases e <;> first | rfl | cases this

theorem acquisitions_setup (w : World) (s : Setup) (hs : startup w = .ok s) :
    acquisitions s.trace
      = [.format_context, .codec_context, .frame, .frame_rgb, .rgb_buffer, .scaler_context,
          .sdl, .window, .renderer, .texture, .packet] := by
  have hsel : acquisitions (select_streams w.decoders w.streams 0 (-1)).1 = [] :=
    select_streams_filterMap _ (fun _ => rfl) (fun _ => rfl) (fun _ _ => rfl) _ _ _ _
  rw [(startup_ok w s hs).2.2.2.2.2.2.2]
  simp only [acquisitions_append, hsel]
  split_ifs <;> rfl

/-- C10 as the code has it.  On every path on which the playback loop is left
by its condition (user quit) or by `break` (end of stream, read error), the
release calls of the run are exactly those of lines 198-209 and they come last:
RGB buffer, RGB frame, decoded frame, codec context, format context (the FFmpeg
resources that are released, latest acquired first), then texture, renderer,
window, SDL (the SDL resources, latest acquired first), each once; the scaler
context and the packet are acquired and have no release call; `main` returns 0. -/
theorem C10_release_sequence_on_normal_stop (w : World) (s : Setup)
    (hs : startup w = .ok s)
    (hstop : ∀ response, (playback_loop s.video_stream_index s.delay false w.cycles).2
      ≠ .decode_fault response) :
    (main w).trace
        = s.trace ++ (playback_loop s.video_stream_index s.delay false w.cycles).1 ++ shutdown
      ∧ releases (s.trace ++ (playback_loop s.video_stream_index s.delay false w.cycles).1) = []
      ∧ releases (main w).trace
        = [.rgb_buffer, .frame_rgb, .frame, .codec_context, .format_context,
            .texture, .renderer, .window, .sdl]
      ∧ acquisitions (main w).trace
        = [.format_context, .codec_context, .frame, .frame_rgb, .rgb_buffer, .scaler_context,
            .sdl, .window, .renderer, .texture, .packet]
      ∧ (main w).code = 0 := by
  have hm : main w
      = ⟨s.trace ++ (playback_loop s.video_stream_index s.delay false w.cycles).1 ++ shutdown,
          0⟩ := by
    rw [main_ok w s hs]
    split
    · rename_i response h
      exact absurd h (hstop response)
    · rfl
  have hr : releases (s.trace
      ++ (playback_loop s.video_stream_index s.delay false w.cycles).1) = [] := by
    rw [releases_append, releases_before_loop _ (setup_trace_before_loop w s hs),
      releases_in_loop _ (playback_loop_in_loop _ _ _ _)]
    rfl
  have ha : acquisitions (s.trace
      ++ (playback_loop s.video_stream_index s.delay false w.cycles).1 ++ shutdown)
      = [.format_context, .codec_context, .frame, .frame_rgb, .rgb_buffer, .scaler_context,
          .sdl, .window, .renderer, .texture, .packet] := by
    rw [acquisitions_append, acquisitions_append, acquisitions_setup w s hs,
      acquisitions_in_loop _ (playback_loop_in_loop _ _ _ _)]
    rfl
  rw [hm]
  refine ⟨rfl, hr, ?_, ha, rfl⟩
  show releases (_ ++ shutdown) = _
  rw [releases_append, hr]
  rfl

/-- C10 on `demo_world`, whose loop ends at the end of the stream. -/
theorem C10_witness :
    startup demo_world = .ok demo_setup
      ∧ releases (main demo_world).trace
        = [.rgb_buffer, .frame_rgb, .frame, .codec_context, .format_context,
            .texture, .renderer, .window, .sdl]
      ∧ (main demo_world).code = 0 :=
  have h := C10_release_sequence_on_normal_stop demo_world demo_setup rfl
    (by
      intro response hr
      have e : (playback_loop demo_setup.video_stream_index demo_setup.delay false
          demo_world.cycles).2 = .read_failed AVERROR_EOF := rfl
      rw [e] at hr
      cases hr)
  ⟨rfl, h.2.2.1, h.2.2.2.2⟩

/-- C10 as stated fails: in `demo_world`, whose loop ends at the end of the
stream, the releases are not the acquisitions in reverse order, not even among
the resources that are released: the format context, acquired first, is
released fifth, before the four SDL resources, and SDL is released last. -/
theorem C10_counterexample :
    releases (main demo_world).trace ≠ (acquisitions (main demo_world).trace).reverse
      ∧ releases (main demo_world).trace
        ≠ ((acquisitions (main demo_world).trace).filter
            fun r => decide (r ∈ releases (main demo_world).trace)).reverse
      ∧ (acquisitions (main demo_world).trace).head? = some .format_context
      ∧ (releases (main demo_world).trace).getLast? = some .sdl := by
  decide

/-- C3, the run that shows the defect.  In `fault_world` start-up succeeds and
the first `avcodec_receive_frame` answers `AVERROR_INVALIDDATA`: line 176
returns that response from `main`, so the value handed to the system is
-1094995529 and the exit status is its low byte, 183, where every other fatal
path ends in `exit(EXIT_FAILURE)`, status 1.  No resource is released on this
path. -/
theorem C3_decode_fault_returns_the_response :
    startup fault_world = .ok demo_setup
      ∧ (playback_loop 1 40 false fault_world.cycles).2 = .decode_fault AVERROR_INVALIDDATA
      ∧ (main fault_world).code = -1094995529
      ∧ exitStatus (main fault_world) = 183
      ∧ exitStatus (main fault_world) ≠ EXIT_FAILURE
      ∧ releases (main fault_world).trace = [] := by
  refine ⟨rfl, ?_, ?_, ?_, ?_, ?_⟩ <;> decide

/-- C7, the run that shows the defect.  In `no_renderer_world`
`SDL_CreateRenderer` and `SDL_CreateTexture` return NULL; the source does not
test them, start-up goes on, the loop is entered, both packets are read, the
upload and presentation calls are made (on the NULL handles), and `main`
returns 0. -/
theorem C7_renderer_failure_is_not_fatal :
    no_renderer_world.SDL_CreateRenderer = false
      ∧ no_renderer_world.SDL_CreateTexture = false
      ∧ startup no_renderer_world = .ok demo_setup
      ∧ packets_read (main no_renderer_world).trace
        = [⟨1, 0, [⟨0, 0⟩]⟩, ⟨1, 0, [⟨0, 1⟩]⟩]
      ∧ shown (main no_renderer_world).trace
        = [.SDL_UpdateTexture 0, .SDL_RenderPresent, .SDL_UpdateTexture 1, .SDL_RenderPresent]
      ∧ (main no_renderer_world).code = 0 := by
  refine ⟨rfl, rfl, rfl, ?_, ?_, ?_⟩ <;> decide

/-- C8, the run that shows the defect.  In `rejecting_world` the first packet is
rejected by `avcodec_send_packet`; the `continue` of line 165 jumps over the
`av_packet_unref` of line 195, so the next call after the error message is the
poll loop and the `av_read_frame` of the next turn, on a packet that has not
been released.  The rest of the claim holds on this run: nothing is shown for
the rejected packet, the frame of the second packet is presented, and `main`
returns 0. -/
theorem C8_rejected_packet_is_not_released :
    (playback_loop 1 40 false rejecting_world.cycles).1
        = [.SDL_PollEvent none,
            .av_read_frame 0 (some ⟨1, AVERROR_INVALIDDATA, [⟨0, 0⟩]⟩),
            .avcodec_send_packet AVERROR_INVALIDDATA,
            .fprintf_stderr (.send_failed AVERROR_INVALIDDATA),
            .SDL_PollEvent none,
            .av_read_frame 0 (some ⟨1, 0, [⟨0, 1⟩]⟩),
            .avcodec_send_packet 0,
            .avcodec_receive_frame 0,
            .sws_scale 1, .SDL_UpdateTexture 1, .SDL_RenderClear, .SDL_RenderCopy,
            .SDL_RenderPresent,
            .avcodec_receive_frame AVERROR_EAGAIN,
            .SDL_Delay 40,
            .av_packet_unref,
            .SDL_PollEvent none,
            .av_read_frame AVERROR_EOF none]
      ∧ (main rejecting_world).trace
        = demo_setup.trace ++ (playback_loop 1 40 false rejecting_world.cycles).1 ++ shutdown
      ∧ (packets_read (main rejecting_world).trace).length = 2
      ∧ ((main rejecting_world).trace.filter fun e => decide (e = .av_packet_unref)).length = 1
      ∧ (main rejecting_world).code = 0 := by
  refine ⟨rfl, rfl, ?_, ?_, ?_⟩ <;> decide

end VideoPlayer
